import Mathlib

/-!
Verification of the IRVE dashboard's data-shaping core.

We give a shallow embedding of the cleaning pipeline (`src/utils/prep.py`,
`clean_irve_data`) and of the chart builders (`src/utils/viz.py`) over an
explicit dataframe model, and prove the spec's claims about them.

Modelling conventions:
* a pandas cell is a `Cell`: missing (`na`, covering NaN/NaT/None), a string,
  a rational number (floats are modelled exactly by `ℚ`), or a date;
* a `DataFrame` is a column-name list plus a list of rows (lists of cells);
  pandas frames are rectangular, captured by `Df.WF`;
* `pd.to_numeric(errors="coerce")`, `pd.to_datetime(errors="coerce")`,
  `astype(str)`, `.str.title()`, `.str.strip()`, `pd.cut`, `drop_duplicates`,
  `dropna(subset=…)` and column projection are each embedded by a function
  named after the corresponding pipeline step;
* chart builders return the data that the source feeds to the plot object,
  and raise `KeyError` via `Except.error`.
-/

/-- A single dataframe cell. `na` is pandas missingness (NaN/NaT/None). -/
inductive Cell where
  | na : Cell
  | str : String → Cell
  | num : ℚ → Cell
  | date : Int → Nat → Nat → Cell
deriving DecidableEq, Repr

/-- `true` iff the cell is a (non-missing) number. -/
def Cell.isNum : Cell → Bool
  | .num _ => true
  | _ => false

/-- `true` iff the cell is a (non-missing) string. -/
def Cell.isStr : Cell → Bool
  | .str _ => true
  | _ => false

/-- A dataframe: ordered column names and rows of cells. -/
structure Df where
  cols : List String
  rows : List (List Cell)
deriving DecidableEq, Repr

/-- Rectangularity: every row has exactly one cell per column. -/
def Df.WF (df : Df) : Prop := ∀ r ∈ df.rows, r.length = df.cols.length

instance (df : Df) : Decidable df.WF := List.decidableBAll _ df.rows

/-- Index of the first occurrence of a name in a column list
(pandas resolves a duplicated label to its first position). -/
def firstIdx (c : String) : List String → Option Nat
  | [] => none
  | x :: xs => if x = c then some 0 else (firstIdx c xs).map (· + 1)

/-- Column index of `c` in `df`; out-of-range sentinel when absent. -/
def Df.colIdx (df : Df) (c : String) : Nat :=
  (firstIdx c df.cols).getD df.cols.length

/-- The cell of row `r` in column `c` (missing columns/short rows read `na`). -/
def Df.cell (df : Df) (r : List Cell) (c : String) : Cell :=
  r.getD (df.colIdx c) Cell.na

/-- The column `c` as a list of cells (empty when the column is absent). -/
def Df.getColD (df : Df) (c : String) : List Cell :=
  match firstIdx c df.cols with
  | none => []
  | some i => df.rows.map (fun r => r.getD i Cell.na)

/-- Apply `f` to every cell of column `c` (identity when `c` is absent):
embeds `df[c] = f(df[c])` for an elementwise `f`. -/
def Df.mapCol (df : Df) (c : String) (f : Cell → Cell) : Df :=
  match firstIdx c df.cols with
  | none => df
  | some i => { df with rows := df.rows.map (fun r => r.set i (f (r.getD i Cell.na))) }

/-- Embed `df[c] = vals`: overwrite column `c` when present, else append it
as the last column (pandas column assignment). -/
def Df.setCol (df : Df) (c : String) (vals : List Cell) : Df :=
  match firstIdx c df.cols with
  | some i => { df with rows := (df.rows.zip vals).map (fun p => p.1.set i p.2) }
  | none =>
    { cols := df.cols ++ [c], rows := (df.rows.zip vals).map (fun p => p.1 ++ [p.2]) }

/-! ### Scalar coercions (pandas/numpy semantics) -/

/-- Python `str.strip()` on a character list: drop surrounding whitespace. -/
def stripChars (l : List Char) : List Char :=
  ((l.dropWhile Char.isWhitespace).reverse.dropWhile Char.isWhitespace).reverse

/-- Python `str.strip()` (pandas `.str.strip()`). -/
def stripString (s : String) : String := ⟨stripChars s.toList⟩

/-- Python `str.lower()` (pandas `.str.lower()`). -/
def lowerString (s : String) : String := ⟨s.toList.map Char.toLower⟩

/-- Natural number denoted by a nonempty all-digit character list. -/
def digitsToNat? (cs : List Char) : Option Nat :=
  if cs ≠ [] ∧ cs.all Char.isDigit then
    some (cs.foldl (fun n c => n * 10 + (c.toNat - 48)) 0)
  else none

/-- Parse a decimal literal (optional sign, optional fractional part) as an
exact rational — the numeric strings `pd.to_numeric` accepts. Exponent forms
are not modelled; they only widen the set of accepted strings. -/
def parseRat? (s : String) : Option ℚ :=
  let cs := stripChars s.toList
  let sign : ℚ := if cs.take 1 = ['-'] then -1 else 1
  let body := if cs.take 1 = ['-'] ∨ cs.take 1 = ['+'] then cs.drop 1 else cs
  let ip := body.takeWhile (· ≠ '.')
  let rest := body.dropWhile (· ≠ '.')
  match rest with
  | [] =>
    match digitsToNat? ip with
    | some n => some (sign * n)
    | none => none
  | _ :: fp =>
    if ip = [] ∧ fp = [] then none
    else if ip.all Char.isDigit ∧ fp.all Char.isDigit then
      let ipn : Nat := ip.foldl (fun n c => n * 10 + (c.toNat - 48)) 0
      let fpn : Nat := fp.foldl (fun n c => n * 10 + (c.toNat - 48)) 0
      some (sign * (ipn + (fpn : ℚ) / (10 : ℚ) ^ fp.length))
    else none

/-- `pd.to_numeric(x, errors="coerce")` on one cell. -/
def toNumeric : Cell → Cell
  | .num q => .num q
  | .str s =>
    match parseRat? s with
    | some q => .num q
    | none => .na
  | _ => .na

/-- Parse an ISO `YYYY-MM-DD` date. Other concrete layouts `pd.to_datetime`
accepts are not modelled; they only widen the set of parsable strings. -/
def splitOnChar (sep : Char) (l : List Char) : List (List Char) :=
  l.foldr (fun c acc =>
    match acc with
    | [] => [[c]]
    | cur :: rest => if c = sep then [] :: (cur :: rest) else (c :: cur) :: rest) [[]]

def parseDate? (s : String) : Option (Int × Nat × Nat) :=
  match splitOnChar (Char.ofNat 45) (stripChars s.toList) with
  | [ys, ms, ds] =>
    match digitsToNat? ys, digitsToNat? ms, digitsToNat? ds with
    | some y, some m, some d =>
      if 1 ≤ m ∧ m ≤ 12 ∧ 1 ≤ d ∧ d ≤ 31 then some ((y : Int), m, d) else none
    | _, _, _ => none
  | _ => none

/-- `pd.to_datetime(x, errors="coerce")` on one cell. -/
def toDatetime : Cell → Cell
  | .date y m d => .date y m d
  | .str s =>
    match parseDate? s with
    | some (y, m, d) => .date y m d
    | none => .na
  | _ => .na

/-- `.dt.year` on one cell (`NaT` yields NaN). -/
def yearOf : Cell → Cell
  | .date y _ _ => .num (y : ℚ)
  | _ => .na

/-- Two-digit zero-padded rendering of a calendar component. -/
def pad2 (n : Nat) : String :=
  if n < 10 then "0" ++ toString n else toString n

/-- Python `str(x)` on one cell. Missing values print as `"nan"`; exact float
decimal rendering is approximated for non-integers (no claim evaluates it). -/
def Cell.asPyStr : Cell → String
  | .na => "nan"
  | .str s => s
  | .num q => if q.den = 1 then toString q.num ++ ".0" else toString q.num ++ "/" ++ toString q.den
  | .date y m d => toString y ++ "-" ++ pad2 m ++ "-" ++ pad2 d

/-- Python `str.title()` over a character list: letters starting a run are
uppercased, letters continuing a run are lowercased. -/
def pyTitleAux : List Char → Bool → List Char
  | [], _ => []
  | c :: cs, prev =>
    if c.isAlpha then
      (if prev then c.toLower else c.toUpper) :: pyTitleAux cs true
    else
      c :: pyTitleAux cs false

/-- Python `str.title()`. -/
def pyTitle (s : String) : String := ⟨pyTitleAux s.toList false⟩

/-- One cell of step 6: `astype(str).str.title().str.strip()`. -/
def titleCell (c : Cell) : Cell := .str (stripString (pyTitle c.asPyStr))

/-! ### The cleaning pipeline (`clean_irve_data`, src/utils/prep.py) -/

/-- Power-category bin labels, lowest to highest. -/
def catLabels : List String :=
  ["Normal (<22kW)", "Fast (22–50kW)", "Very fast (50–150kW)", "Ultra-fast (>150kW)"]

/-- `pd.cut(x, bins=[0,22,50,150,1000], labels=catLabels, right=False)` on one
cell: left-closed right-open bins; out-of-range or non-numeric is NaN. -/
def powerCategory : Cell → Cell
  | .num q =>
    if 0 ≤ q ∧ q < 22 then .str "Normal (<22kW)"
    else if 22 ≤ q ∧ q < 50 then .str "Fast (22–50kW)"
    else if 50 ≤ q ∧ q < 150 then .str "Very fast (50–150kW)"
    else if 150 ≤ q ∧ q < 1000 then .str "Ultra-fast (>150kW)"
    else .na
  | _ => .na

/-- Step 2: `df.columns = df.columns.str.strip().str.lower()`. -/
def normalizeHeader (df : Df) : Df :=
  { df with cols := df.cols.map (fun s => lowerString (stripString s)) }

/-- Step 3: parse the service date and derive the service year. -/
def dateStep (df : Df) : Df :=
  if "date_mise_en_service" ∈ df.cols then
    let d := df.mapCol "date_mise_en_service" toDatetime
    d.setCol "annee_mise_en_service" ((d.getColD "date_mise_en_service").map yearOf)
  else df

/-- `if col in df.columns: df[col] = f(df[col])` — the guarded elementwise
column update shared by steps 4 and 6. -/
def coerceCol (c : String) (f : Cell → Cell) (d : Df) : Df :=
  if c ∈ d.cols then d.mapCol c f else d

/-- Step 4: coerce latitude and longitude to numeric. -/
def coordStep (df : Df) : Df :=
  (["consolidated_latitude", "consolidated_longitude"]).foldl
    (fun d c => coerceCol c toNumeric d) df

/-- Step 5: coerce nominal power to numeric and derive the power category. -/
def powerStep (df : Df) : Df :=
  if "puissance_nominale" ∈ df.cols then
    let d := df.mapCol "puissance_nominale" toNumeric
    d.setCol "categorie_puissance" ((d.getColD "puissance_nominale").map powerCategory)
  else df

/-- The three free-text name columns of step 6. -/
def textCols : List String := ["nom_amenageur", "nom_operateur", "nom_commune"]

/-- Step 6: title-case and trim the operator/installer/municipality names. -/
def textStep (df : Df) : Df :=
  textCols.foldl (fun d c => coerceCol c titleCell d) df

/-- The two identity columns used for deduplication. -/
def identityCols : List String := ["id_pdc_itinerance", "id_pdc_local"]

/-- `[k for k in ["id_pdc_itinerance", "id_pdc_local"] if k in df.columns]`. -/
def identityKeys (df : Df) : List String := identityCols.filter (· ∈ df.cols)

/-- Fuelled recursion for `dedupBy` (the fuel dominates the list length, so
the `0, _ :: _` branch is never reached on `dedupBy`'s call). -/
def dedupByF {α β : Type} [DecidableEq β] (f : α → β) : Nat → List α → List α
  | _, [] => []
  | 0, _ :: _ => []
  | n + 1, x :: xs => x :: dedupByF f n (xs.filter (fun y => decide (f y ≠ f x)))

/-- Keep the first element of each fibre of `f`, in order
(`drop_duplicates(keep="first")`). -/
def dedupBy {α β : Type} [DecidableEq β] (f : α → β) (l : List α) : List α :=
  dedupByF f l.length l

/-- The identity key of a row: its cells in the present identity columns. -/
def keyOf (df : Df) (keys : List String) (r : List Cell) : List Cell :=
  keys.map (fun k => df.cell r k)

/-- Step 7: `drop_duplicates(subset=keys, keep="first")` over the present
identity columns; no-op when none is present. -/
def dedupStep (df : Df) : Df :=
  let keys := identityKeys df
  if keys.isEmpty then df
  else { df with rows := dedupBy (keyOf df keys) df.rows }

/-- Step 8: `dropna(subset=[lat, lon])` when both coordinate columns exist. -/
def dropnaStep (df : Df) : Df :=
  if "consolidated_latitude" ∈ df.cols ∧ "consolidated_longitude" ∈ df.cols then
    { df with
      rows := df.rows.filter (fun r =>
        decide (df.cell r "consolidated_latitude" ≠ Cell.na ∧
                df.cell r "consolidated_longitude" ≠ Cell.na)) }
  else df

/-- Step 9's allow-list of columns, in its fixed order. -/
def keepList : List String :=
  ["nom_amenageur", "nom_operateur", "nom_commune",
   "consolidated_latitude", "consolidated_longitude",
   "puissance_nominale", "categorie_puissance",
   "date_mise_en_service", "annee_mise_en_service"]

/-- Steps 9–10: keep only the allow-listed columns that are present, in the
allow-list's order. -/
def projectStep (df : Df) : Df :=
  let keep := keepList.filter (· ∈ df.cols)
  { cols := keep, rows := df.rows.map (fun r => keep.map (fun c => df.cell r c)) }

/-- The pipeline up to (excluding) deduplication: steps 2–6. -/
def preDedup (df : Df) : Df :=
  textStep (powerStep (coordStep (dateStep (normalizeHeader df))))

/-- The pipeline up to (excluding) projection: steps 2–8. -/
def preProject (df : Df) : Df := dropnaStep (dedupStep (preDedup df))

/-- `clean_irve_data` (src/utils/prep.py): the full cleaning pipeline. -/
def clean_irve_data (df : Df) : Df := projectStep (preProject df)

/-! ### Chart builders (src/utils/viz.py)

Each builder returns the data object the source hands to the plotting
library, and models a raised `KeyError` as `Except.error`. -/

/-- The `KeyError` message `f"Column '{col}' not found."`. -/
def keyErrorMsg (col : String) : String :=
  "Column \x27" ++ col ++ "\x27 not found."

/-- `_ensure_datetime`: the column parsed as dates, or a `KeyError`. -/
def ensure_datetime (df : Df) (col : String) : Except String (List Cell) :=
  if col ∈ df.cols then .ok ((df.getColD col).map toDatetime)
  else .error (keyErrorMsg col)

/-- `_ensure_numeric`: the column coerced to numeric, or a `KeyError`. -/
def ensure_numeric (df : Df) (col : String) : Except String (List Cell) :=
  if col ∈ df.cols then .ok ((df.getColD col).map toNumeric)
  else .error (keyErrorMsg col)

/-- `.dt.to_period(freq)`: year for `"Y"`, year/quarter for `"Q"`,
year/month for `"M"`; periods compare chronologically as pairs. -/
def periodOf (freq : String) : Cell → Int × Nat
  | .date y m _ =>
    if freq = "Q" then (y, (m - 1) / 3 + 1)
    else if freq = "M" then (y, m)
    else (y, 0)
  | _ => (0, 0)

/-- Chronological order on periods. -/
def periodLE (a b : Int × Nat) : Bool :=
  decide (a.1 < b.1) || (decide (a.1 = b.1) && decide (a.2 ≤ b.2))

/-- `line_installations_over_time`: per-period counts of parsed dates,
sorted chronologically. -/
def line_installations_over_time (df : Df) (date_col : String) (freq : String) :
    Except String (List ((Int × Nat) × Nat)) :=
  match ensure_datetime df date_col with
  | .error e => .error e
  | .ok s =>
    let dates := s.filter (fun c => decide (c ≠ Cell.na))
    let periods := dates.map (periodOf freq)
    .ok ((periods.dedup.mergeSort periodLE).map (fun p => (p, periods.count p)))

/-- `Series.fillna(v)` elementwise. -/
def fillnaCell (v : String) : Cell → Cell
  | .na => .str v
  | c => c

/-- `value_counts()`: distinct values in first-appearance order with their
multiplicities (sorting is applied by the callers below). -/
def valueCounts (cells : List Cell) : List (Cell × Nat) :=
  (dedupBy id cells).map (fun v => (v, cells.count v))

/-- `value_counts().head(top_n).sort_values(ascending=True)`. -/
def topEntitiesData (cells : List Cell) (top_n : Nat) : List (Cell × Nat) :=
  (((valueCounts cells).mergeSort (fun a b => b.2 ≤ a.2)).take top_n).mergeSort
    (fun a b => a.2 ≤ b.2)

/-- `bar_top_entities`: most frequent values of a categorical column, with
missing values bucketed as `"Unknown"`. -/
def bar_top_entities (df : Df) (entity_col : String) (top_n : Nat) :
    Except String (List (Cell × Nat)) :=
  if entity_col ∈ df.cols then
    .ok (topEntitiesData ((df.getColD entity_col).map (fillnaCell "Unknown")) top_n)
  else .error (keyErrorMsg entity_col)

/-- `bar_power_categories`: counts of the four fixed power categories, in
the fixed order, zero-filled (`value_counts().reindex(categories, fill_value=0)`
after casting `astype(str)` to the ordered categorical). -/
def bar_power_categories (df : Df) (cat_col : String) :
    Except String (List (String × Nat)) :=
  if cat_col ∈ df.cols then
    let strs := (df.getColD cat_col).map Cell.asPyStr
    .ok (catLabels.map (fun lab => (lab, strs.count lab)))
  else .error (keyErrorMsg cat_col)

/-- `np.nanpercentile(s, 99)` with the default linear interpolation;
`none` on an empty input. -/
def percentile99 (l : List ℚ) : Option ℚ :=
  match l.mergeSort (fun a b => decide (a ≤ b)) with
  | [] => none
  | x :: xs =>
    let s := x :: xs
    let n := s.length
    let hq : ℚ := ((n - 1 : Nat) : ℚ) * 99 / 100
    let lo : Nat := hq.floor.toNat
    let frac : ℚ := hq - (lo : ℚ)
    let x0 := s.getD lo 0
    let x1 := s.getD (min (lo + 1) (n - 1)) 0
    some (x0 + frac * (x1 - x0))

/-- `hist_power_distribution`: the numeric column with NaNs dropped and
values clipped at the 99th percentile, plus the bin count. -/
def hist_power_distribution (df : Df) (power_col : String) (nbins : Nat) :
    Except String (List ℚ × Nat) :=
  match ensure_numeric df power_col with
  | .error e => .error e
  | .ok cells =>
    let s := cells.filterMap (fun c => match c with | .num q => some q | _ => none)
    match percentile99 s with
    | none => .ok (s, nbins)
    | some cap => .ok (s.map (fun q => min q cap), nbins)

/-- `df.isnull().mean()` for one column: the fraction of missing cells
(pandas yields NaN on an empty frame; `ℚ` division by zero gives 0 here —
no judged statement evaluates that case). -/
def missRate (df : Df) (c : String) : ℚ :=
  (((df.getColD c).countP (fun x => decide (x = Cell.na)) : Nat) : ℚ) /
    (df.rows.length : ℚ)

/-- `bar_missingness`: per-column missing rates sorted descending, truncated
to `top_n`, scaled to percent, then re-sorted ascending for horizontal-bar
display. -/
def bar_missingness (df : Df) (top_n : Nat) : List (String × ℚ) :=
  let miss := ((df.cols.map (fun c => (c, missRate df c))).mergeSort
    (fun a b => b.2 ≤ a.2)).take top_n
  let missPct := miss.map (fun p => (p.1, p.2 * 100))
  missPct.mergeSort (fun a b => a.2 ≤ b.2)

/-- The chart description `map_irve_points` returns: the scatter layer's
data, the tooltip template, and the default viewport center. -/
structure DeckSpec where
  data : Df
  tooltip : String
  viewLat : ℚ
  viewLon : ℚ
deriving DecidableEq, Repr

/-- `np.clip(fillna(7), 5, 40)` on one power cell. -/
def sizeCell : Cell → Cell
  | .num q => .num (min (max q 5) 40)
  | _ => .num (min (max (7 : ℚ) 5) 40)

/-- `map_irve_points`: adds `__lat`/`__lon`/`__size`, drops unmappable rows,
and assembles the tooltip from the columns actually present. -/
def map_irve_points (df : Df) (lat_col lon_col puissance_col : String)
    (tooltip_cols : List String) : Except String DeckSpec :=
  match ensure_numeric df lat_col with
  | .error e => .error e
  | .ok latv =>
    let d0 := df.setCol "__lat" latv
    match ensure_numeric d0 lon_col with
    | .error e => .error e
    | .ok lonv =>
      let d1 := d0.setCol "__lon" lonv
      let sizes : List Cell :=
        if puissance_col ∈ d1.cols then
          (d1.getColD puissance_col).map (fun c => sizeCell (toNumeric c))
        else d1.rows.map (fun _ => .num 8)
      let d2 := d1.setCol "__size" sizes
      let base := "<b>Lat:</b> \x7b__lat\x7d<br/><b>Lon:</b> \x7b__lon\x7d"
      let withCols := tooltip_cols.foldl
        (fun t c =>
          if c ∈ d2.cols then
            t ++ "<br/><b>" ++ c ++ ":</b> \x7b" ++ c ++ "\x7d"
          else t) base
      let tooltip :=
        if puissance_col ∈ d2.cols then
          withCols ++ "<br/><b>Power (kW):</b> \x7b" ++ puissance_col ++ "\x7d"
        else withCols
      let data :=
        { d2 with
          rows := d2.rows.filter (fun r =>
            decide (d2.cell r "__lat" ≠ Cell.na ∧ d2.cell r "__lon" ≠ Cell.na)) }
      .ok { data := data, tooltip := tooltip, viewLat := 46.6, viewLon := 2.5 }

/-! ### Heap model for the mutation claims

Python frames are heap objects reached through references. A `Store` is the
heap (frames at natural-number addresses); `df.copy()` allocates, a column
or header assignment writes in place at the variable's current address, and
`df = df.f(...)` rebinds the variable to a freshly allocated frame. -/

/-- The heap of dataframes. -/
abbrev Store := List Df

/-- Read the frame at address `a`. -/
def Store.read (s : Store) (a : Nat) : Df := s.getD a { cols := [], rows := [] }

/-- Overwrite the frame at address `a`. -/
def Store.write (s : Store) (a : Nat) (d : Df) : Store := s.set a d

/-- `clean_irve_data` over the heap: the input lives at `a`; line 14 copies
it, lines 19–55 mutate the copy in place (each assignment writes the frame
just computed from the copy's current value back to the copy's address),
lines 62/68 rebind `df` to new frames, line 82 allocates the returned
frame. Returns the heap and the result's address. -/
def clean_irve_data_heap (s : Store) (a : Nat) : Store × Nat :=
  let df0 := s.read a
  let s1 := s ++ [df0]
  let b := s.length
  let d2 := normalizeHeader df0
  let s2 := s1.write b d2
  let d3 := dateStep d2
  let s3 := s2.write b d3
  let d4 := coordStep d3
  let s4 := s3.write b d4
  let d5 := powerStep d4
  let s5 := s4.write b d5
  let d6 := textStep d5
  let s6 := s5.write b d6
  let d7 := dedupStep d6
  let s7 := s6 ++ [d7]
  let d8 := dropnaStep d7
  let s8 := s7 ++ [d8]
  let out := projectStep d8
  let s9 := s8 ++ [out]
  (s9, s8.length)

/-- `map_irve_points` over the heap: line 62 copies the input, the three
column assignments mutate the copy; a raised `KeyError` propagates with the
heap as mutated so far. -/
def map_irve_points_heap (s : Store) (a : Nat) (lat_col lon_col puissance_col : String)
    (tooltip_cols : List String) : Store × Except String DeckSpec :=
  let df0 := s.read a
  let s1 := s ++ [df0]
  let b := s.length
  match ensure_numeric df0 lat_col with
  | .error e => (s1, .error e)
  | .ok latv =>
    let d0 := df0.setCol "__lat" latv
    let s2 := s1.write b d0
    match ensure_numeric d0 lon_col with
    | .error e => (s2, .error e)
    | .ok lonv =>
      let d1 := d0.setCol "__lon" lonv
      let s3 := s2.write b d1
      let sizes : List Cell :=
        if puissance_col ∈ d1.cols then
          (d1.getColD puissance_col).map (fun c => sizeCell (toNumeric c))
        else d1.rows.map (fun _ => .num 8)
      let d2 := d1.setCol "__size" sizes
      let s4 := s3.write b d2
      let base := "<b>Lat:</b> \x7b__lat\x7d<br/><b>Lon:</b> \x7b__lon\x7d"
      let withCols := tooltip_cols.foldl
        (fun t c =>
          if c ∈ d2.cols then
            t ++ "<br/><b>" ++ c ++ ":</b> \x7b" ++ c ++ "\x7d"
          else t) base
      let tooltip :=
        if puissance_col ∈ d2.cols then
          withCols ++ "<br/><b>Power (kW):</b> \x7b" ++ puissance_col ++ "\x7d"
        else withCols
      let data :=
        { d2 with
          rows := d2.rows.filter (fun r =>
            decide (d2.cell r "__lat" ≠ Cell.na ∧ d2.cell r "__lon" ≠ Cell.na)) }
      (s4, .ok { data := data, tooltip := tooltip, viewLat := 46.6, viewLon := 2.5 })

/-- `line_installations_over_time` over the heap: the source never assigns
into the frame, so the heap is returned untouched. -/
def line_installations_over_time_heap (s : Store) (a : Nat) (date_col freq : String) :
    Store × Except String (List ((Int × Nat) × Nat)) :=
  (s, line_installations_over_time (s.read a) date_col freq)

/-- `bar_top_entities` over the heap: no assignment into the frame. -/
def bar_top_entities_heap (s : Store) (a : Nat) (entity_col : String) (top_n : Nat) :
    Store × Except String (List (Cell × Nat)) :=
  (s, bar_top_entities (s.read a) entity_col top_n)

/-- `bar_power_categories` over the heap: no assignment into the frame. -/
def bar_power_categories_heap (s : Store) (a : Nat) (cat_col : String) :
    Store × Except String (List (String × Nat)) :=
  (s, bar_power_categories (s.read a) cat_col)

/-- `hist_power_distribution` over the heap: no assignment into the frame. -/
def hist_power_distribution_heap (s : Store) (a : Nat) (power_col : String) (nbins : Nat) :
    Store × Except String (List ℚ × Nat) :=
  (s, hist_power_distribution (s.read a) power_col nbins)

/-- `bar_missingness` over the heap: no assignment into the frame. -/
def bar_missingness_heap (s : Store) (a : Nat) (top_n : Nat) :
    Store × List (String × ℚ) :=
  (s, bar_missingness (s.read a) top_n)

/-! ### List and index lemmas -/

theorem listGetD_set_ne {α : Type _} (l : List α) (i j : Nat) (a d : α) (h : i ≠ j) :
    (l.set i a).getD j d = l.getD j d := by
  induction l generalizing i j with
  | nil => simp
  | cons x xs ih =>
    cases i with
    | zero =>
      cases j with
      | zero => exact absurd rfl h
      | succ j => simp [List.getD]
    | succ i =>
      cases j with
      | zero => simp [List.getD]
      | succ j =>
        simpa [List.getD] using ih i j (by omega)

theorem listGetD_set_self {α : Type _} (l : List α) (i : Nat) (a d : α)
    (h : i < l.length) : (l.set i a).getD i d = a := by
  induction l generalizing i with
  | nil => simp at h
  | cons x xs ih =>
    cases i with
    | zero => simp [List.getD]
    | succ i =>
      simp only [List.length_cons, Nat.succ_lt_succ_iff] at h
      simpa [List.getD] using ih i h

theorem listGetD_append_left {α : Type _} (l l' : List α) (i : Nat) (d : α)
    (h : i < l.length) : (l ++ l').getD i d = l.getD i d := by
  induction l generalizing i with
  | nil => simp at h
  | cons x xs ih =>
    cases i with
    | zero => simp [List.getD]
    | succ i =>
      simp only [List.length_cons, Nat.succ_lt_succ_iff] at h
      simpa [List.getD] using ih i h

theorem listGetD_concat_self {α : Type _} (l : List α) (a d : α) :
    (l ++ [a]).getD l.length d = a := by
  induction l with
  | nil => simp [List.getD]
  | cons x xs ih => simp [List.getD, ih]

theorem listGetD_map_get? {α β : Type _} (l : List α) (f : α → β) (i : Nat) (x : α)
    (d : β) (h : l.get? i = some x) : (l.map f).getD i d = f x := by
  induction l generalizing i with
  | nil => simp at h
  | cons y ys ih =>
    cases i with
    | zero =>
      simp only [List.get?] at h
      cases h
      simp [List.getD]
    | succ i =>
      simp only [List.get?] at h
      simpa [List.getD] using ih i h

theorem zip_map_self {α β γ : Type _} (l : List α) (φ : α → β) (ψ : α × β → γ) :
    (l.zip (l.map φ)).map ψ = l.map (fun x => ψ (x, φ x)) := by
  induction l with
  | nil => rfl
  | cons x xs ih => rw [List.map_cons, List.zip_cons_cons, List.map_cons, ih, List.map_cons]

theorem mapFix {α : Type _} (l : List α) (f : α → α) (h : ∀ x ∈ l, f x = x) :
    l.map f = l := by
  induction l with
  | nil => rfl
  | cons x xs ih =>
    simp only [List.map_cons, h x (List.mem_cons_self x xs),
      ih (fun y hy => h y (List.mem_cons_of_mem x hy))]

/-! ### `firstIdx` lemmas -/

theorem firstIdx_eq_none_iff (c : String) (l : List String) :
    firstIdx c l = none ↔ c ∉ l := by
  induction l with
  | nil => simp [firstIdx]
  | cons x xs ih =>
    by_cases hx : x = c
    · subst hx
      simp [firstIdx]
    · simp only [firstIdx, if_neg hx, Option.map_eq_none', ih, List.mem_cons]
      constructor
      · rintro hnotin (h | h)
        · exact hx h.symm
        · exact hnotin h
      · intro hnot
        exact fun h => hnot (Or.inr h)

theorem firstIdx_get? (c : String) (l : List String) (i : Nat)
    (h : firstIdx c l = some i) : l.get? i = some c := by
  induction l generalizing i with
  | nil => simp [firstIdx] at h
  | cons x xs ih =>
    rw [firstIdx] at h
    by_cases hx : x = c
    · rw [if_pos hx] at h
      cases h
      simp [hx]
    · rw [if_neg hx] at h
      obtain ⟨j, hj, hij⟩ := Option.map_eq_some'.mp h
      subst hij
      simpa using ih j hj

theorem firstIdx_lt (c : String) (l : List String) (i : Nat)
    (h : firstIdx c l = some i) : i < l.length := by
  have := firstIdx_get? c l i h
  exact List.get?_eq_some.mp this |>.1

theorem firstIdx_of_mem (c : String) (l : List String) (h : c ∈ l) :
    ∃ i, firstIdx c l = some i := by
  rcases ho : firstIdx c l with _ | i
  · exact absurd ((firstIdx_eq_none_iff c l).mp ho) (by simp [h])
  · exact ⟨i, rfl⟩

theorem firstIdx_append_of_mem (c : String) (l l' : List String) (h : c ∈ l) :
    firstIdx c (l ++ l') = firstIdx c l := by
  induction l with
  | nil => simp at h
  | cons x xs ih =>
    by_cases hx : x = c
    · simp [firstIdx, if_pos hx]
    · have hmem : c ∈ xs := by
        rcases List.mem_cons.mp h with h1 | h1
        · exact absurd h1.symm hx
        · exact h1
      simp [firstIdx, if_neg hx, ih hmem]

theorem firstIdx_append_of_not_mem (c : String) (l l' : List String) (h : c ∉ l) :
    firstIdx c (l ++ l') = (firstIdx c l').map (· + l.length) := by
  induction l with
  | nil => simp
  | cons x xs ih =>
    have hx : x ≠ c := fun hc => h (by simp [hc])
    have hxs : c ∉ xs := fun hc => h (List.mem_cons_of_mem x hc)
    rw [List.cons_append]
    simp only [firstIdx, if_neg hx, ih hxs]
    cases firstIdx c l' with
    | none => rfl
    | some j =>
      simp only [Option.map_some', Option.some.injEq, List.length_cons]
      omega

theorem firstIdx_concat_self (c : String) (l : List String) (h : c ∉ l) :
    firstIdx c (l ++ [c]) = some l.length := by
  rw [firstIdx_append_of_not_mem c l [c] h]
  simp [firstIdx]

/-! ### Dataframe operation lemmas -/

theorem mapCongr {α β : Type _} (l : List α) (f g : α → β)
    (h : ∀ x ∈ l, f x = g x) : l.map f = l.map g := by
  induction l with
  | nil => rfl
  | cons x xs ih =>
    rw [List.map_cons, List.map_cons, h x (List.mem_cons_self x xs),
      ih (fun y hy => h y (List.mem_cons_of_mem x hy))]

theorem zipMapSnd {α β : Type _} (l : List α) (v : List β) (F : α × β → β)
    (hlen : v.length = l.length) (h : ∀ p ∈ l.zip v, F p = p.2) :
    (l.zip v).map F = v := by
  induction l generalizing v with
  | nil =>
    cases v
    · rfl
    · simp at hlen
  | cons x xs ih =>
    cases v with
    | nil => simp at hlen
    | cons y ys =>
      rw [List.zip_cons_cons, List.map_cons,
        h (x, y) (by rw [List.zip_cons_cons]; exact List.mem_cons_self _ _),
        ih ys (by simpa using hlen)
          (fun p hp => h p (by rw [List.zip_cons_cons]; exact List.mem_cons_of_mem _ hp))]

theorem zipMapFst {α β γ : Type _} (l : List α) (v : List β) (F : α × β → γ)
    (G : α → γ) (hlen : v.length = l.length) (h : ∀ p ∈ l.zip v, F p = G p.1) :
    (l.zip v).map F = l.map G := by
  induction l generalizing v with
  | nil => rfl
  | cons x xs ih =>
    cases v with
    | nil => simp at hlen
    | cons y ys =>
      rw [List.zip_cons_cons, List.map_cons, List.map_cons,
        h (x, y) (by rw [List.zip_cons_cons]; exact List.mem_cons_self _ _),
        ih ys (by simpa using hlen)
          (fun p hp => h p (by rw [List.zip_cons_cons]; exact List.mem_cons_of_mem _ hp))]

theorem mapCol_cols (df : Df) (c : String) (f : Cell → Cell) :
    (df.mapCol c f).cols = df.cols := by
  rcases hI : firstIdx c df.cols with _ | i <;> simp [Df.mapCol, hI]

theorem mapCol_rows_length (df : Df) (c : String) (f : Cell → Cell) :
    (df.mapCol c f).rows.length = df.rows.length := by
  rcases hI : firstIdx c df.cols with _ | i <;> simp [Df.mapCol, hI]

theorem mapCol_WF (df : Df) (c : String) (f : Cell → Cell) (h : df.WF) :
    (df.mapCol c f).WF := by
  rcases hI : firstIdx c df.cols with _ | i
  · simpa [Df.mapCol, hI] using h
  · intro r hr
    simp only [Df.mapCol, hI, List.mem_map] at hr
    obtain ⟨r0, hr0, hmap⟩ := hr
    subst hmap
    simp only [Df.mapCol, hI, List.length_set]
    exact h r0 hr0

theorem setCol_cols_of_mem (df : Df) (c : String) (v : List Cell)
    (h : c ∈ df.cols) : (df.setCol c v).cols = df.cols := by
  obtain ⟨i, hI⟩ := firstIdx_of_mem c df.cols h
  simp [Df.setCol, hI]

theorem setCol_cols_of_not_mem (df : Df) (c : String) (v : List Cell)
    (h : c ∉ df.cols) : (df.setCol c v).cols = df.cols ++ [c] := by
  have hI : firstIdx c df.cols = none := (firstIdx_eq_none_iff c df.cols).mpr h
  simp [Df.setCol, hI]

theorem mem_setCol_cols (df : Df) (c x : String) (v : List Cell)
    (h : x ∈ df.cols) : x ∈ (df.setCol c v).cols := by
  by_cases hc : c ∈ df.cols
  · rw [setCol_cols_of_mem df c v hc]; exact h
  · rw [setCol_cols_of_not_mem df c v hc]; exact List.mem_append_left _ h

theorem setCol_cols_cases (df : Df) (c x : String) (v : List Cell)
    (h : x ∈ (df.setCol c v).cols) : x ∈ df.cols ∨ x = c := by
  by_cases hc : c ∈ df.cols
  · rw [setCol_cols_of_mem df c v hc] at h; exact Or.inl h
  · rw [setCol_cols_of_not_mem df c v hc] at h
    rcases List.mem_append.mp h with h1 | h1
    · exact Or.inl h1
    · exact Or.inr (by simpa using h1)

theorem setCol_rows_length (df : Df) (c : String) (v : List Cell)
    (hlen : v.length = df.rows.length) :
    (df.setCol c v).rows.length = df.rows.length := by
  rcases hI : firstIdx c df.cols with _ | i <;>
    simp [Df.setCol, hI, List.length_zip, hlen]

theorem setCol_WF (df : Df) (c : String) (v : List Cell) (h : df.WF) :
    (df.setCol c v).WF := by
  rcases hI : firstIdx c df.cols with _ | i
  · intro r hr
    simp only [Df.setCol, hI, List.mem_map] at hr
    obtain ⟨p, hp, hmap⟩ := hr
    subst hmap
    obtain ⟨hp1, _⟩ := List.of_mem_zip hp
    simp only [Df.setCol, hI, List.length_append, List.length_cons,
      List.length_nil, List.length_append]
    simp [h p.1 hp1]
  · intro r hr
    simp only [Df.setCol, hI, List.mem_map] at hr
    obtain ⟨p, hp, hmap⟩ := hr
    subst hmap
    obtain ⟨hp1, _⟩ := List.of_mem_zip hp
    simp only [Df.setCol, hI, List.length_set]
    exact h p.1 hp1

theorem getColD_length (df : Df) (c : String) (h : c ∈ df.cols) :
    (df.getColD c).length = df.rows.length := by
  obtain ⟨i, hI⟩ := firstIdx_of_mem c df.cols h
  simp [Df.getColD, hI]

theorem getColD_eq_map_cell (df : Df) (c : String) (h : c ∈ df.cols) :
    df.getColD c = df.rows.map (fun r => df.cell r c) := by
  obtain ⟨i, hI⟩ := firstIdx_of_mem c df.cols h
  simp [Df.getColD, hI, Df.cell, Df.colIdx]

theorem cell_mem_getColD (df : Df) (c : String) (r : List Cell)
    (hc : c ∈ df.cols) (hr : r ∈ df.rows) : df.cell r c ∈ df.getColD c := by
  rw [getColD_eq_map_cell df c hc]
  exact List.mem_map_of_mem _ hr

theorem getColD_mapCol_self (df : Df) (c : String) (f : Cell → Cell) (h : df.WF) :
    (df.mapCol c f).getColD c = (df.getColD c).map f := by
  rcases hI : firstIdx c df.cols with _ | i
  · simp [Df.mapCol, Df.getColD, hI]
  · have hlt : i < df.cols.length := firstIdx_lt c df.cols i hI
    simp only [Df.mapCol, hI, Df.getColD, List.map_map]
    apply mapCongr
    intro r hr
    simp only [Function.comp]
    exact listGetD_set_self r i _ Cell.na (by rw [h r hr]; exact hlt)

theorem getColD_mapCol_ne (df : Df) (c c' : String) (f : Cell → Cell)
    (hne : c' ≠ c) : (df.mapCol c' f).getColD c = df.getColD c := by
  rcases hI' : firstIdx c' df.cols with _ | i'
  · simp [Df.mapCol, hI']
  · rcases hI : firstIdx c df.cols with _ | i
    · simp [Df.mapCol, hI', Df.getColD, mapCol_cols, hI]
    · have hii : i' ≠ i := by
        intro hcontra
        subst hcontra
        have h1 := firstIdx_get? c' df.cols i' hI'
        have h2 := firstIdx_get? c df.cols i' hI
        rw [h1] at h2
        exact hne (Option.some.injEq _ _ ▸ h2 ▸ rfl)
      simp only [Df.mapCol, hI', Df.getColD, hI, List.map_map]
      apply mapCongr
      intro r hr
      simp only [Function.comp]
      exact listGetD_set_ne r i' i _ Cell.na hii

theorem getColD_setCol_self (df : Df) (c : String) (v : List Cell) (h : df.WF)
    (hlen : v.length = df.rows.length) : (df.setCol c v).getColD c = v := by
  rcases hI : firstIdx c df.cols with _ | i
  · have hnotmem : c ∉ df.cols := (firstIdx_eq_none_iff c df.cols).mp hI
    have hI2 : firstIdx c (df.cols ++ [c]) = some df.cols.length :=
      firstIdx_concat_self c df.cols hnotmem
    simp only [Df.setCol, hI, Df.getColD, hI2, List.map_map]
    apply zipMapSnd _ _ _ hlen
    intro p hp
    obtain ⟨hp1, _⟩ := List.of_mem_zip hp
    simp only [Function.comp]
    rw [← h p.1 hp1]
    exact listGetD_concat_self p.1 p.2 Cell.na
  · have hlt : i < df.cols.length := firstIdx_lt c df.cols i hI
    simp only [Df.setCol, hI, Df.getColD, List.map_map]
    apply zipMapSnd _ _ _ hlen
    intro p hp
    obtain ⟨hp1, _⟩ := List.of_mem_zip hp
    simp only [Function.comp]
    exact listGetD_set_self p.1 i p.2 Cell.na (by rw [h p.1 hp1]; exact hlt)

theorem getColD_setCol_ne (df : Df) (c c' : String) (v : List Cell) (h : df.WF)
    (hlen : v.length = df.rows.length) (hne : c' ≠ c) :
    (df.setCol c' v).getColD c = df.getColD c := by
  rcases hI' : firstIdx c' df.cols with _ | i'
  · -- append case: cols become cols ++ [c']
    rcases hI : firstIdx c df.cols with _ | i
    · have hnotmem : c ∉ df.cols := (firstIdx_eq_none_iff c df.cols).mp hI
      have hI2 : firstIdx c (df.cols ++ [c']) = none := by
        rw [firstIdx_append_of_not_mem c df.cols [c'] hnotmem]
        simp [firstIdx, fun hc => hne (hc : c' = c)]
      simp [Df.setCol, hI', Df.getColD, hI2, hI]
    · have hmem : c ∈ df.cols := by
        have := firstIdx_get? c df.cols i hI
        exact List.get?_mem this
      have hI2 : firstIdx c (df.cols ++ [c']) = some i := by
        rw [firstIdx_append_of_mem c df.cols [c'] hmem, hI]
      have hlt : i < df.cols.length := firstIdx_lt c df.cols i hI
      simp only [Df.setCol, hI', Df.getColD, hI2, hI, List.map_map]
      apply zipMapFst _ _ _ _ hlen
      intro p hp
      obtain ⟨hp1, _⟩ := List.of_mem_zip hp
      simp only [Function.comp]
      exact listGetD_append_left p.1 [p.2] i Cell.na (by rw [h p.1 hp1]; exact hlt)
  · -- overwrite case: cols unchanged
    rcases hI : firstIdx c df.cols with _ | i
    · have hcolseq : (df.setCol c' v).cols = df.cols := by
        simp [Df.setCol, hI']
      simp [Df.getColD, hcolseq, hI, Df.setCol, hI']
    · have hii : i' ≠ i := by
        intro hcontra
        subst hcontra
        have h1 := firstIdx_get? c' df.cols i' hI'
        have h2 := firstIdx_get? c df.cols i' hI
        rw [h1] at h2
        exact hne (Option.some.injEq _ _ ▸ h2 ▸ rfl)
      simp only [Df.setCol, hI', Df.getColD, hI, List.map_map]
      apply zipMapFst _ _ _ _ hlen
      intro p hp
      simp only [Function.comp]
      exact listGetD_set_ne p.1 i' i p.2 Cell.na hii

/-! ### Step-level lemmas -/

theorem coordStep_eq (df : Df) :
    coordStep df =
      coerceCol "consolidated_longitude" toNumeric
        (coerceCol "consolidated_latitude" toNumeric df) := rfl

theorem textStep_eq (df : Df) :
    textStep df =
      coerceCol "nom_commune" titleCell
        (coerceCol "nom_operateur" titleCell
          (coerceCol "nom_amenageur" titleCell df)) := rfl

theorem coerceCol_cols (c : String) (f : Cell → Cell) (d : Df) :
    (coerceCol c f d).cols = d.cols := by
  unfold coerceCol
  split
  · exact mapCol_cols d c f
  · rfl

theorem coerceCol_rows_length (c : String) (f : Cell → Cell) (d : Df) :
    (coerceCol c f d).rows.length = d.rows.length := by
  unfold coerceCol
  split
  · exact mapCol_rows_length d c f
  · rfl

theorem coerceCol_WF (c : String) (f : Cell → Cell) (d : Df) (h : d.WF) :
    (coerceCol c f d).WF := by
  unfold coerceCol
  split
  · exact mapCol_WF d c f h
  · exact h

theorem getColD_coerceCol_ne (c c' : String) (f : Cell → Cell) (d : Df)
    (hne : c' ≠ c) : (coerceCol c' f d).getColD c = d.getColD c := by
  unfold coerceCol
  split
  · exact getColD_mapCol_ne d c c' f hne
  · rfl

theorem getColD_coerceCol_self (c : String) (f : Cell → Cell) (d : Df)
    (h : d.WF) (hc : c ∈ d.cols) :
    (coerceCol c f d).getColD c = (d.getColD c).map f := by
  unfold coerceCol
  rw [if_pos hc]
  exact getColD_mapCol_self d c f h

theorem normalizeHeader_WF (df : Df) (h : df.WF) : (normalizeHeader df).WF := by
  intro r hr
  simp only [normalizeHeader, List.length_map]
  exact h r hr

theorem normalizeHeader_rows (df : Df) : (normalizeHeader df).rows = df.rows := rfl

theorem dateStep_cols_mono (df : Df) (x : String) (h : x ∈ df.cols) :
    x ∈ (dateStep df).cols := by
  unfold dateStep
  split
  · exact mem_setCol_cols _ _ x _ (by rw [mapCol_cols]; exact h)
  · exact h

theorem dateStep_cols_cases (df : Df) (x : String) (h : x ∈ (dateStep df).cols) :
    x ∈ df.cols ∨ (x = "annee_mise_en_service" ∧ "date_mise_en_service" ∈ df.cols) := by
  unfold dateStep at h
  by_cases hd : "date_mise_en_service" ∈ df.cols
  · rw [if_pos hd] at h
    rcases setCol_cols_cases _ _ x _ h with h1 | h1
    · rw [mapCol_cols] at h1
      exact Or.inl h1
    · exact Or.inr ⟨h1, hd⟩
  · rw [if_neg hd] at h
    exact Or.inl h

theorem dateStep_rows_length (df : Df) :
    (dateStep df).rows.length = df.rows.length := by
  unfold dateStep
  split
  case isTrue hd =>
    have hmem : "date_mise_en_service" ∈ (df.mapCol "date_mise_en_service" toDatetime).cols := by
      rw [mapCol_cols]
      exact hd
    have hlen :
        (((df.mapCol "date_mise_en_service" toDatetime).getColD
            "date_mise_en_service").map yearOf).length =
          (df.mapCol "date_mise_en_service" toDatetime).rows.length := by
      simp only [List.length_map]
      exact getColD_length _ _ hmem
    rw [setCol_rows_length _ _ _ hlen, mapCol_rows_length]
  case isFalse => rfl

theorem dateStep_WF (df : Df) (h : df.WF) : (dateStep df).WF := by
  unfold dateStep
  split
  · exact setCol_WF _ _ _ (mapCol_WF df _ toDatetime h)
  · exact h

theorem powerStep_cols_mono (df : Df) (x : String) (h : x ∈ df.cols) :
    x ∈ (powerStep df).cols := by
  unfold powerStep
  split
  · exact mem_setCol_cols _ _ x _ (by rw [mapCol_cols]; exact h)
  · exact h

theorem powerStep_cols_cases (df : Df) (x : String) (h : x ∈ (powerStep df).cols) :
    x ∈ df.cols ∨ (x = "categorie_puissance" ∧ "puissance_nominale" ∈ df.cols) := by
  unfold powerStep at h
  by_cases hd : "puissance_nominale" ∈ df.cols
  · rw [if_pos hd] at h
    rcases setCol_cols_cases _ _ x _ h with h1 | h1
    · rw [mapCol_cols] at h1
      exact Or.inl h1
    · exact Or.inr ⟨h1, hd⟩
  · rw [if_neg hd] at h
    exact Or.inl h

theorem powerStep_rows_length (df : Df) :
    (powerStep df).rows.length = df.rows.length := by
  unfold powerStep
  split
  case isTrue hd =>
    have hmem : "puissance_nominale" ∈ (df.mapCol "puissance_nominale" toNumeric).cols := by
      rw [mapCol_cols]
      exact hd
    have hlen :
        (((df.mapCol "puissance_nominale" toNumeric).getColD
            "puissance_nominale").map powerCategory).length =
          (df.mapCol "puissance_nominale" toNumeric).rows.length := by
      simp only [List.length_map]
      exact getColD_length _ _ hmem
    rw [setCol_rows_length _ _ _ hlen, mapCol_rows_length]
  case isFalse => rfl

theorem powerStep_WF (df : Df) (h : df.WF) : (powerStep df).WF := by
  unfold powerStep
  split
  · exact setCol_WF _ _ _ (mapCol_WF df _ toNumeric h)
  · exact h

theorem coordStep_cols (df : Df) : (coordStep df).cols = df.cols := by
  rw [coordStep_eq, coerceCol_cols, coerceCol_cols]

theorem coordStep_rows_length (df : Df) :
    (coordStep df).rows.length = df.rows.length := by
  rw [coordStep_eq, coerceCol_rows_length, coerceCol_rows_length]

theorem coordStep_WF (df : Df) (h : df.WF) : (coordStep df).WF := by
  rw [coordStep_eq]
  exact coerceCol_WF _ _ _ (coerceCol_WF _ _ _ h)

theorem textStep_cols (df : Df) : (textStep df).cols = df.cols := by
  rw [textStep_eq, coerceCol_cols, coerceCol_cols, coerceCol_cols]

theorem textStep_rows_length (df : Df) :
    (textStep df).rows.length = df.rows.length := by
  rw [textStep_eq, coerceCol_rows_length, coerceCol_rows_length, coerceCol_rows_length]

theorem textStep_WF (df : Df) (h : df.WF) : (textStep df).WF := by
  rw [textStep_eq]
  exact coerceCol_WF _ _ _ (coerceCol_WF _ _ _ (coerceCol_WF _ _ _ h))

theorem dedupStep_cols (df : Df) : (dedupStep df).cols = df.cols := by
  by_cases hk : (identityKeys df).isEmpty
  · simp [dedupStep, hk]
  · simp [dedupStep, hk]

theorem dropnaStep_cols (df : Df) : (dropnaStep df).cols = df.cols := by
  unfold dropnaStep
  split <;> rfl

theorem dedupByF_subset {α β : Type} [DecidableEq β] (f : α → β) :
    ∀ (n : Nat) (l : List α), ∀ x ∈ dedupByF f n l, x ∈ l := by
  intro n
  induction n with
  | zero =>
    intro l x hx
    cases l with
    | nil => simp [dedupByF] at hx
    | cons y ys => simp [dedupByF] at hx
  | succ n ih =>
    intro l x hx
    cases l with
    | nil => simp [dedupByF] at hx
    | cons y ys =>
      rw [dedupByF] at hx
      rcases List.mem_cons.mp hx with h1 | h1
      · exact h1 ▸ List.mem_cons_self _ _
      · exact List.mem_cons_of_mem _ (List.mem_of_mem_filter (ih _ x h1))

theorem dedupBy_subset {α β : Type} [DecidableEq β] (f : α → β) (l : List α) :
    ∀ x ∈ dedupBy f l, x ∈ l :=
  dedupByF_subset f l.length l

theorem dedupByF_pairwise {α β : Type} [DecidableEq β] (f : α → β) :
    ∀ (n : Nat) (l : List α),
      (dedupByF f n l).Pairwise (fun a b => f a ≠ f b) := by
  intro n
  induction n with
  | zero =>
    intro l
    cases l with
    | nil => simp [dedupByF]
    | cons y ys => simp [dedupByF]
  | succ n ih =>
    intro l
    cases l with
    | nil => simp [dedupByF]
    | cons y ys =>
      rw [dedupByF]
      refine List.Pairwise.cons ?_ (ih _)
      intro b hb
      have hbf := dedupByF_subset _ _ _ b hb
      have := List.of_mem_filter hbf
      simp only [decide_eq_true_eq] at this
      exact fun hyb => this hyb.symm

theorem dedupBy_pairwise {α β : Type} [DecidableEq β] (f : α → β) (l : List α) :
    (dedupBy f l).Pairwise (fun a b => f a ≠ f b) :=
  dedupByF_pairwise f l.length l

theorem find?_filter_of_key_ne {α β : Type} [DecidableEq β] (f : α → β) (k t : β)
    (hne : t ≠ k) (l : List α) :
    (l.filter (fun y => decide (f y ≠ k))).find? (fun s => decide (f s = t)) =
      l.find? (fun s => decide (f s = t)) := by
  induction l with
  | nil => rfl
  | cons y ys ih =>
    by_cases hy : f y = t
    · have hyk : (f y ≠ k) := fun hcontra => hne (hy ▸ hcontra)
      rw [List.filter_cons_of_pos (by simpa using hyk)]
      rw [List.find?_cons_of_pos _ (by simpa using hy),
        List.find?_cons_of_pos _ (by simpa using hy)]
    · by_cases hyk : f y = k
      · rw [List.filter_cons_of_neg (by simpa using hyk),
          List.find?_cons_of_neg _ (by simpa using hy), ih]
      · rw [List.filter_cons_of_pos (by simpa using hyk),
          List.find?_cons_of_neg _ (by simpa using hy),
          List.find?_cons_of_neg _ (by simpa using hy), ih]

theorem dedupByF_find? {α β : Type} [DecidableEq β] (f : α → β) :
    ∀ (n : Nat) (l : List α), ∀ r ∈ dedupByF f n l,
      l.find? (fun s => decide (f s = f r)) = some r := by
  intro n
  induction n with
  | zero =>
    intro l r hr
    cases l with
    | nil => simp [dedupByF] at hr
    | cons y ys => simp [dedupByF] at hr
  | succ n ih =>
    intro l r hr
    cases l with
    | nil => simp [dedupByF] at hr
    | cons y ys =>
      rw [dedupByF] at hr
      rcases List.mem_cons.mp hr with h1 | h1
      · subst h1
        rw [List.find?_cons_of_pos _ (by simp)]
      · have hfil := ih _ r h1
        have hrmem := dedupByF_subset _ _ _ r h1
        have hrne : f r ≠ f y := by
          have := List.of_mem_filter hrmem
          simpa using this
        rw [List.find?_cons_of_neg _ (by simpa using fun h => hrne h.symm)]
        rw [← find?_filter_of_key_ne f (f y) (f r) hrne ys]
        exact hfil

theorem dedupBy_find? {α β : Type} [DecidableEq β] (f : α → β) (l : List α) :
    ∀ r ∈ dedupBy f l, l.find? (fun s => decide (f s = f r)) = some r :=
  dedupByF_find? f l.length l

theorem dedupStep_rows_subset (df : Df) :
    ∀ r ∈ (dedupStep df).rows, r ∈ df.rows := by
  intro r hr
  by_cases hk : (identityKeys df).isEmpty
  · simpa [dedupStep, hk] using hr
  · simp only [dedupStep, hk] at hr
    simp only [Bool.false_eq_true, if_false] at hr
    exact dedupBy_subset _ _ r hr

theorem dedupStep_WF (df : Df) (h : df.WF) : (dedupStep df).WF := by
  intro r hr
  rw [dedupStep_cols]
  exact h r (dedupStep_rows_subset df r hr)

theorem dropnaStep_rows_subset (df : Df) :
    ∀ r ∈ (dropnaStep df).rows, r ∈ df.rows := by
  intro r hr
  unfold dropnaStep at hr
  split at hr
  · exact List.mem_of_mem_filter hr
  · exact hr

theorem dropnaStep_WF (df : Df) (h : df.WF) : (dropnaStep df).WF := by
  intro r hr
  rw [dropnaStep_cols]
  exact h r (dropnaStep_rows_subset df r hr)

theorem projectStep_cols (df : Df) :
    (projectStep df).cols = keepList.filter (fun c => decide (c ∈ df.cols)) := rfl

theorem projectStep_rows_length (df : Df) :
    (projectStep df).rows.length = df.rows.length := by
  simp [projectStep]

theorem projectStep_WF (df : Df) : (projectStep df).WF := by
  intro r hr
  simp only [projectStep, List.mem_map] at hr
  obtain ⟨r0, _, hmap⟩ := hr
  subst hmap
  simp [projectStep]

theorem getColD_projectStep (df : Df) (c : String)
    (hc : c ∈ keepList.filter (fun c => decide (c ∈ df.cols))) :
    (projectStep df).getColD c = df.rows.map (fun r => df.cell r c) := by
  obtain ⟨i, hI⟩ := firstIdx_of_mem c _ hc
  have hget := firstIdx_get? c _ i hI
  simp only [Df.getColD, projectStep, hI, List.map_map]
  apply mapCongr
  intro r hr
  simp only [Function.comp]
  exact listGetD_map_get? _ _ i c Cell.na hget

/-! ### Composite-stage lemmas -/

theorem preDedup_WF (df : Df) (h : df.WF) : (preDedup df).WF :=
  textStep_WF _ (powerStep_WF _ (coordStep_WF _ (dateStep_WF _ (normalizeHeader_WF df h))))

theorem preDedup_rows_length (df : Df) :
    (preDedup df).rows.length = df.rows.length := by
  unfold preDedup
  rw [textStep_rows_length, powerStep_rows_length, coordStep_rows_length,
    dateStep_rows_length]
  rfl

theorem preDedup_cols_mono (df : Df) (x : String)
    (h : x ∈ (normalizeHeader df).cols) : x ∈ (preDedup df).cols := by
  unfold preDedup
  rw [textStep_cols]
  apply powerStep_cols_mono
  rw [coordStep_cols]
  exact dateStep_cols_mono _ _ h

theorem preDedup_cols_cases (df : Df) (x : String) (h : x ∈ (preDedup df).cols) :
    x ∈ (normalizeHeader df).cols ∨
      (x = "annee_mise_en_service" ∧ "date_mise_en_service" ∈ (normalizeHeader df).cols) ∨
      (x = "categorie_puissance" ∧ "puissance_nominale" ∈ (normalizeHeader df).cols) := by
  unfold preDedup at h
  rw [textStep_cols] at h
  rcases powerStep_cols_cases _ _ h with h1 | h1
  · rw [coordStep_cols] at h1
    rcases dateStep_cols_cases _ _ h1 with h2 | h2
    · exact Or.inl h2
    · exact Or.inr (Or.inl h2)
  · rw [coordStep_cols] at h1
    rcases dateStep_cols_cases _ _ h1.2 with h2 | h2
    · exact Or.inr (Or.inr ⟨h1.1, h2⟩)
    · exact absurd h2.1 (by decide)

theorem preProject_cols (df : Df) : (preProject df).cols = (preDedup df).cols := by
  unfold preProject
  rw [dropnaStep_cols, dedupStep_cols]

theorem preProject_WF (df : Df) (h : df.WF) : (preProject df).WF :=
  dropnaStep_WF _ (dedupStep_WF _ (preDedup_WF df h))

theorem clean_WF (df : Df) : (clean_irve_data df).WF := projectStep_WF _

theorem clean_cols (df : Df) :
    (clean_irve_data df).cols =
      keepList.filter (fun c => decide (c ∈ (preProject df).cols)) := by
  unfold clean_irve_data
  rw [projectStep_cols]

/-! ### Column-content transport through the steps -/

theorem getColD_subset_of_rows_subset (d d' : Df) (hc : d'.cols = d.cols)
    (hrows : ∀ r ∈ d'.rows, r ∈ d.rows) (c : String) :
    ∀ x ∈ d'.getColD c, x ∈ d.getColD c := by
  intro x hx
  unfold Df.getColD at hx ⊢
  rw [hc] at hx
  rcases hI : firstIdx c d.cols with _ | i
  · rw [hI] at hx
    simp at hx
  · rw [hI] at hx
    obtain ⟨r, hr, hrx⟩ := List.mem_map.mp hx
    exact List.mem_map.mpr ⟨r, hrows r hr, hrx⟩

theorem getColD_dedupStep_subset (df : Df) (c : String) :
    ∀ x ∈ (dedupStep df).getColD c, x ∈ df.getColD c :=
  getColD_subset_of_rows_subset df (dedupStep df) (dedupStep_cols df)
    (dedupStep_rows_subset df) c

theorem getColD_dropnaStep_subset (df : Df) (c : String) :
    ∀ x ∈ (dropnaStep df).getColD c, x ∈ df.getColD c :=
  getColD_subset_of_rows_subset df (dropnaStep df) (dropnaStep_cols df)
    (dropnaStep_rows_subset df) c

theorem getColD_all_to_cell (df : Df) (c : String) (hc : c ∈ df.cols)
    (P : Cell → Prop) (h : ∀ x ∈ df.getColD c, P x) :
    ∀ r ∈ df.rows, P (df.cell r c) :=
  fun r hr => h _ (cell_mem_getColD df c r hc hr)

theorem getColD_dateStep_ne (df : Df) (c : String) (h : df.WF)
    (h1 : c ≠ "date_mise_en_service") (h2 : c ≠ "annee_mise_en_service") :
    (dateStep df).getColD c = df.getColD c := by
  unfold dateStep
  split
  case isTrue hd =>
    have hWFm : (df.mapCol "date_mise_en_service" toDatetime).WF := mapCol_WF _ _ _ h
    have hmem : "date_mise_en_service" ∈ (df.mapCol "date_mise_en_service" toDatetime).cols := by
      rw [mapCol_cols]
      exact hd
    have hlen :
        (((df.mapCol "date_mise_en_service" toDatetime).getColD
            "date_mise_en_service").map yearOf).length =
          (df.mapCol "date_mise_en_service" toDatetime).rows.length := by
      simp only [List.length_map]
      exact getColD_length _ _ hmem
    rw [getColD_setCol_ne _ _ _ _ hWFm hlen (fun hc => h2 hc.symm)]
    exact getColD_mapCol_ne df c _ toDatetime (fun hc => h1 hc.symm)
  case isFalse => rfl

theorem getColD_powerStep_ne (df : Df) (c : String) (h : df.WF)
    (h1 : c ≠ "puissance_nominale") (h2 : c ≠ "categorie_puissance") :
    (powerStep df).getColD c = df.getColD c := by
  unfold powerStep
  split
  case isTrue hd =>
    have hWFm : (df.mapCol "puissance_nominale" toNumeric).WF := mapCol_WF _ _ _ h
    have hmem : "puissance_nominale" ∈ (df.mapCol "puissance_nominale" toNumeric).cols := by
      rw [mapCol_cols]
      exact hd
    have hlen :
        (((df.mapCol "puissance_nominale" toNumeric).getColD
            "puissance_nominale").map powerCategory).length =
          (df.mapCol "puissance_nominale" toNumeric).rows.length := by
      simp only [List.length_map]
      exact getColD_length _ _ hmem
    rw [getColD_setCol_ne _ _ _ _ hWFm hlen (fun hc => h2 hc.symm)]
    exact getColD_mapCol_ne df c _ toNumeric (fun hc => h1 hc.symm)
  case isFalse => rfl

theorem getColD_powerStep_cat (df : Df) (h : df.WF)
    (hp : "puissance_nominale" ∈ df.cols) :
    (powerStep df).getColD "categorie_puissance" =
      (df.getColD "puissance_nominale").map (fun c => powerCategory (toNumeric c)) := by
  unfold powerStep
  rw [if_pos hp]
  have hWFm : (df.mapCol "puissance_nominale" toNumeric).WF := mapCol_WF _ _ _ h
  have hmem : "puissance_nominale" ∈ (df.mapCol "puissance_nominale" toNumeric).cols := by
    rw [mapCol_cols]
    exact hp
  have hlen :
      (((df.mapCol "puissance_nominale" toNumeric).getColD
          "puissance_nominale").map powerCategory).length =
        (df.mapCol "puissance_nominale" toNumeric).rows.length := by
    simp only [List.length_map]
    exact getColD_length _ _ hmem
  rw [getColD_setCol_self _ _ _ hWFm hlen, getColD_mapCol_self _ _ _ h, List.map_map]
  rfl

theorem getColD_coordStep_lat (df : Df) (h : df.WF)
    (hc : "consolidated_latitude" ∈ df.cols) :
    (coordStep df).getColD "consolidated_latitude" =
      (df.getColD "consolidated_latitude").map toNumeric := by
  rw [coordStep_eq,
    getColD_coerceCol_ne _ _ _ _ (by decide),
    getColD_coerceCol_self _ _ _ h hc]

theorem getColD_coordStep_lon (df : Df) (h : df.WF)
    (hc : "consolidated_longitude" ∈ df.cols) :
    (coordStep df).getColD "consolidated_longitude" =
      (df.getColD "consolidated_longitude").map toNumeric := by
  rw [coordStep_eq,
    getColD_coerceCol_self _ _ _ (coerceCol_WF _ _ _ h) (by rw [coerceCol_cols]; exact hc),
    getColD_coerceCol_ne _ _ _ _ (by decide)]

theorem getColD_coordStep_ne (df : Df) (c : String)
    (h1 : c ≠ "consolidated_latitude") (h2 : c ≠ "consolidated_longitude") :
    (coordStep df).getColD c = df.getColD c := by
  rw [coordStep_eq,
    getColD_coerceCol_ne _ _ _ _ (fun hc => h2 hc.symm),
    getColD_coerceCol_ne _ _ _ _ (fun hc => h1 hc.symm)]

theorem getColD_textStep_ne (df : Df) (c : String)
    (h1 : c ≠ "nom_amenageur") (h2 : c ≠ "nom_operateur") (h3 : c ≠ "nom_commune") :
    (textStep df).getColD c = df.getColD c := by
  rw [textStep_eq,
    getColD_coerceCol_ne _ _ _ _ (fun hc => h3 hc.symm),
    getColD_coerceCol_ne _ _ _ _ (fun hc => h2 hc.symm),
    getColD_coerceCol_ne _ _ _ _ (fun hc => h1 hc.symm)]

theorem getColD_textStep_self (df : Df) (c : String) (h : df.WF)
    (hc : c ∈ textCols) (hmem : c ∈ df.cols) :
    (textStep df).getColD c = (df.getColD c).map titleCell := by
  have hc3 : c = "nom_amenageur" ∨ c = "nom_operateur" ∨ c = "nom_commune" := by
    simpa [textCols] using hc
  rcases hc3 with rfl | rfl | rfl
  · rw [textStep_eq,
      getColD_coerceCol_ne _ _ _ _ (by decide),
      getColD_coerceCol_ne _ _ _ _ (by decide),
      getColD_coerceCol_self _ _ _ h hmem]
  · rw [textStep_eq,
      getColD_coerceCol_ne _ _ _ _ (by decide),
      getColD_coerceCol_self _ _ _ (coerceCol_WF _ _ _ h)
        (by rw [coerceCol_cols]; exact hmem),
      getColD_coerceCol_ne _ _ _ _ (by decide)]
  · rw [textStep_eq,
      getColD_coerceCol_self _ _ _ (coerceCol_WF _ _ _ (coerceCol_WF _ _ _ h))
        (by rw [coerceCol_cols, coerceCol_cols]; exact hmem),
      getColD_coerceCol_ne _ _ _ _ (by decide),
      getColD_coerceCol_ne _ _ _ _ (by decide)]

theorem cell_congr_cols (d d' : Df) (hc : d'.cols = d.cols) (r : List Cell)
    (c : String) : d'.cell r c = d.cell r c := by
  unfold Df.cell Df.colIdx
  rw [hc]

theorem toNumeric_NP (c : Cell) : toNumeric c = Cell.na ∨ (toNumeric c).isNum = true := by
  cases c with
  | na => exact Or.inl rfl
  | num q => exact Or.inr rfl
  | date y m d => exact Or.inl rfl
  | str s =>
    rcases hp : parseRat? s with _ | q
    · exact Or.inl (by simp [toNumeric, hp])
    · exact Or.inr (by simp [toNumeric, Cell.isNum, hp])

theorem dropnaStep_cells (df : Df)
    (hlat : "consolidated_latitude" ∈ df.cols)
    (hlon : "consolidated_longitude" ∈ df.cols) :
    ∀ r ∈ (dropnaStep df).rows,
      df.cell r "consolidated_latitude" ≠ Cell.na ∧
      df.cell r "consolidated_longitude" ≠ Cell.na := by
  intro r hr
  unfold dropnaStep at hr
  rw [if_pos ⟨hlat, hlon⟩] at hr
  have := List.of_mem_filter hr
  simpa using this

theorem preDedup_lat_NP (df : Df) (h : df.WF)
    (hc : "consolidated_latitude" ∈ (normalizeHeader df).cols) :
    ∀ x ∈ (preDedup df).getColD "consolidated_latitude",
      x = Cell.na ∨ x.isNum = true := by
  intro x hx
  unfold preDedup at hx
  rw [getColD_textStep_ne _ _ (by decide) (by decide) (by decide),
    getColD_powerStep_ne _ _
      (coordStep_WF _ (dateStep_WF _ (normalizeHeader_WF df h)))
      (by decide) (by decide),
    getColD_coordStep_lat _ (dateStep_WF _ (normalizeHeader_WF df h))
      (dateStep_cols_mono _ _ hc)] at hx
  obtain ⟨y, _, hy⟩ := List.mem_map.mp hx
  exact hy ▸ toNumeric_NP y

theorem preDedup_lon_NP (df : Df) (h : df.WF)
    (hc : "consolidated_longitude" ∈ (normalizeHeader df).cols) :
    ∀ x ∈ (preDedup df).getColD "consolidated_longitude",
      x = Cell.na ∨ x.isNum = true := by
  intro x hx
  unfold preDedup at hx
  rw [getColD_textStep_ne _ _ (by decide) (by decide) (by decide),
    getColD_powerStep_ne _ _
      (coordStep_WF _ (dateStep_WF _ (normalizeHeader_WF df h)))
      (by decide) (by decide),
    getColD_coordStep_lon _ (dateStep_WF _ (normalizeHeader_WF df h))
      (dateStep_cols_mono _ _ hc)] at hx
  obtain ⟨y, _, hy⟩ := List.mem_map.mp hx
  exact hy ▸ toNumeric_NP y

/-- Every latitude/longitude cell of the cleaned table is a number, provided
both coordinate columns are present before deduplication. -/
theorem clean_coord_isNum (df : Df) (h : df.WF)
    (hlat : "consolidated_latitude" ∈ (preDedup df).cols)
    (hlon : "consolidated_longitude" ∈ (preDedup df).cols) :
    (∀ x ∈ (clean_irve_data df).getColD "consolidated_latitude", x.isNum = true) ∧
    (∀ x ∈ (clean_irve_data df).getColD "consolidated_longitude", x.isNum = true) := by
  have hlatN : "consolidated_latitude" ∈ (normalizeHeader df).cols := by
    rcases preDedup_cols_cases df _ hlat with h1 | h1 | h1
    · exact h1
    · exact absurd h1.1 (by decide)
    · exact absurd h1.1 (by decide)
  have hlonN : "consolidated_longitude" ∈ (normalizeHeader df).cols := by
    rcases preDedup_cols_cases df _ hlon with h1 | h1 | h1
    · exact h1
    · exact absurd h1.1 (by decide)
    · exact absurd h1.1 (by decide)
  -- names for the dedup stage and the dropna stage
  have hWFT : (preDedup df).WF := preDedup_WF df h
  have hWFU : (dedupStep (preDedup df)).WF := dedupStep_WF _ hWFT
  have hlatU : "consolidated_latitude" ∈ (dedupStep (preDedup df)).cols := by
    rw [dedupStep_cols]
    exact hlat
  have hlonU : "consolidated_longitude" ∈ (dedupStep (preDedup df)).cols := by
    rw [dedupStep_cols]
    exact hlon
  have hlatV : "consolidated_latitude" ∈ (preProject df).cols := by
    rw [preProject_cols]
    exact hlat
  have hlonV : "consolidated_longitude" ∈ (preProject df).cols := by
    rw [preProject_cols]
    exact hlon
  have hcells := dropnaStep_cells (dedupStep (preDedup df)) hlatU hlonU
  have hcolsVU : (preProject df).cols = (dedupStep (preDedup df)).cols :=
    dropnaStep_cols _
  constructor
  · intro x hx
    unfold clean_irve_data at hx
    rw [getColD_projectStep _ _ (by
      simp only [List.mem_filter, decide_eq_true_eq]
      exact ⟨by decide, hlatV⟩)] at hx
    obtain ⟨r, hr, hrx⟩ := List.mem_map.mp hx
    have hne : (dedupStep (preDedup df)).cell r "consolidated_latitude" ≠ Cell.na :=
      (hcells r hr).1
    have hmemU : (preProject df).cell r "consolidated_latitude" ∈
        (dedupStep (preDedup df)).getColD "consolidated_latitude" := by
      rw [cell_congr_cols _ _ hcolsVU]
      exact cell_mem_getColD _ _ r hlatU (dropnaStep_rows_subset _ r hr)
    have hNP := preDedup_lat_NP df h hlatN _
      (getColD_dedupStep_subset _ _ _ hmemU)
    rw [cell_congr_cols _ _ hcolsVU] at hrx
    rcases hNP with hna | hnum
    · rw [cell_congr_cols _ _ hcolsVU] at hna
      exact absurd hna hne
    · rw [cell_congr_cols _ _ hcolsVU] at hnum
      exact hrx ▸ hnum
  · intro x hx
    unfold clean_irve_data at hx
    rw [getColD_projectStep _ _ (by
      simp only [List.mem_filter, decide_eq_true_eq]
      exact ⟨by decide, hlonV⟩)] at hx
    obtain ⟨r, hr, hrx⟩ := List.mem_map.mp hx
    have hne : (dedupStep (preDedup df)).cell r "consolidated_longitude" ≠ Cell.na :=
      (hcells r hr).2
    have hmemU : (preProject df).cell r "consolidated_longitude" ∈
        (dedupStep (preDedup df)).getColD "consolidated_longitude" := by
      rw [cell_congr_cols _ _ hcolsVU]
      exact cell_mem_getColD _ _ r hlonU (dropnaStep_rows_subset _ r hr)
    have hNP := preDedup_lon_NP df h hlonN _
      (getColD_dedupStep_subset _ _ _ hmemU)
    rw [cell_congr_cols _ _ hcolsVU] at hrx
    rcases hNP with hna | hnum
    · rw [cell_congr_cols _ _ hcolsVU] at hna
      exact absurd hna hne
    · rw [cell_congr_cols _ _ hcolsVU] at hnum
      exact hrx ▸ hnum

/-! ### Concrete tables used by witnesses and the worked example -/

/-- `48.85` as an exact rational (`977/20`), in reduced structure-literal
form so that kernel evaluation never has to normalize. -/
def rat4885c : ℚ := ⟨977, 20, by decide, by decide⟩

/-- `2.35` as an exact rational (`47/20`). -/
def rat235c : ℚ := ⟨47, 20, by decide, by decide⟩

/-- The worked example's raw table from the spec (§8): a duplicate local ID
and a missing latitude. -/
def exampleRaw : Df :=
  { cols := ["ID_PDC_Local", "Nom_Operateur", "Puissance_Nominale",
             "consolidated_latitude", "consolidated_longitude"],
    rows := [
      [Cell.str "A1", Cell.str "TOTALENERGIES", Cell.num 50,
       Cell.num rat4885c, Cell.num rat235c],
      [Cell.str "A1", Cell.str "Total Energies", Cell.num 50,
       Cell.num rat4885c, Cell.num rat235c],
      [Cell.str "A2", Cell.str "IONITY", Cell.num 350,
       Cell.na, Cell.num rat235c]] }

/-- What `clean_irve_data` actually returns on `exampleRaw`. -/
def exampleClean : Df :=
  { cols := ["nom_operateur", "consolidated_latitude", "consolidated_longitude",
             "puissance_nominale", "categorie_puissance"],
    rows := [[Cell.str "Totalenergies", Cell.num rat4885c, Cell.num rat235c,
              Cell.num 50, Cell.str "Very fast (50–150kW)"]] }

/-- A one-row table with a nominal-power column, used by witnesses. -/
def wdfPower : Df :=
  { cols := ["puissance_nominale"], rows := [[Cell.num 30]] }

/-- A one-row table with both coordinate columns, used by witnesses. -/
def wdfCoord : Df :=
  { cols := ["consolidated_latitude", "consolidated_longitude"],
    rows := [[Cell.num rat4885c, Cell.num rat235c], [Cell.na, Cell.num 1]] }

/-! ### The claims -/

/-- C1: the power category derived inside `clean_irve_data` (step 5) is the
elementwise `powerCategory ∘ toNumeric` of the raw power column, and
`powerCategory` maps `[0,22)` to Normal, `[22,50)` to Fast, `[50,150)` to
Very fast, `[150,1000)` to Ultra-fast, and negative, `≥ 1000` or missing
values to an undefined (`na`) category. -/
theorem claim_C1 (df : Df) (hWF : df.WF) (hp : "puissance_nominale" ∈ df.cols) :
    ((powerStep df).getColD "categorie_puissance" =
       (df.getColD "puissance_nominale").map (fun c => powerCategory (toNumeric c))) ∧
    (∀ q : ℚ,
      (0 ≤ q → q < 22 → powerCategory (.num q) = .str "Normal (<22kW)") ∧
      (22 ≤ q → q < 50 → powerCategory (.num q) = .str "Fast (22–50kW)") ∧
      (50 ≤ q → q < 150 → powerCategory (.num q) = .str "Very fast (50–150kW)") ∧
      (150 ≤ q → q < 1000 → powerCategory (.num q) = .str "Ultra-fast (>150kW)") ∧
      ((q < 0 ∨ 1000 ≤ q) → powerCategory (.num q) = .na)) ∧
    powerCategory Cell.na = Cell.na := by
  refine ⟨getColD_powerStep_cat df hWF hp, ?_, rfl⟩
  intro q
  refine ⟨?_, ?_, ?_, ?_, ?_⟩
  · intro h1 h2
    simp only [powerCategory]
    rw [if_pos ⟨h1, h2⟩]
  · intro h1 h2
    simp only [powerCategory]
    rw [if_neg (by rintro ⟨_, hc⟩; linarith), if_pos ⟨h1, h2⟩]
  · intro h1 h2
    simp only [powerCategory]
    rw [if_neg (by rintro ⟨_, hc⟩; linarith),
      if_neg (by rintro ⟨_, hc⟩; linarith), if_pos ⟨h1, h2⟩]
  · intro h1 h2
    simp only [powerCategory]
    rw [if_neg (by rintro ⟨_, hc⟩; linarith),
      if_neg (by rintro ⟨_, hc⟩; linarith),
      if_neg (by rintro ⟨_, hc⟩; linarith), if_pos ⟨h1, h2⟩]
  · intro h1
    simp only [powerCategory]
    rcases h1 with h1 | h1
    · rw [if_neg (by rintro ⟨hc, _⟩; linarith),
        if_neg (by rintro ⟨hc, _⟩; linarith),
        if_neg (by rintro ⟨hc, _⟩; linarith),
        if_neg (by rintro ⟨hc, _⟩; linarith)]
    · rw [if_neg (by rintro ⟨_, hc⟩; linarith),
        if_neg (by rintro ⟨_, hc⟩; linarith),
        if_neg (by rintro ⟨_, hc⟩; linarith),
        if_neg (by rintro ⟨_, hc⟩; linarith)]

/-- Witness for C1 at the concrete table `wdfPower` and the value 30. -/
theorem claim_C1_witness :
    (((powerStep wdfPower).getColD "categorie_puissance" =
        (wdfPower.getColD "puissance_nominale").map
          (fun c => powerCategory (toNumeric c))) ∧
     powerCategory (Cell.num 30) = Cell.str "Fast (22–50kW)") := by
  have h := claim_C1 wdfPower (by decide) (by decide)
  exact ⟨h.1, (h.2.1 30).2.1 (by norm_num) (by norm_num)⟩

/-- C2 (counterexample): on the spec's worked example, the surviving row's
power category is NOT "Fast (22–50kW)" as the claim states — power 50 falls
in the left-closed bin [50,150). -/
theorem claim_C2_counterexample :
    ¬ ((clean_irve_data exampleRaw).getColD "categorie_puissance" =
        [Cell.str "Fast (22–50kW)"]) := by decide

/-- C2 (amended): on the worked example, `clean_irve_data` returns exactly
one row — operator "Totalenergies", power category "Very fast (50–150kW)"
(not "Fast": 50 is in [50,150)), coordinates 48.85/2.35 retained; the second
`A1` row is deduplicated away and the `A2` row is dropped for its missing
latitude. -/
theorem claim_C2 : clean_irve_data exampleRaw = exampleClean := by decide

/-- C3: when both coordinate columns are present (after header
normalization), every latitude and longitude cell of the cleaned table is a
defined number. -/
theorem claim_C3 (df : Df) (hWF : df.WF)
    (hlat : "consolidated_latitude" ∈ (normalizeHeader df).cols)
    (hlon : "consolidated_longitude" ∈ (normalizeHeader df).cols) :
    (∀ x ∈ (clean_irve_data df).getColD "consolidated_latitude", x.isNum = true) ∧
    (∀ x ∈ (clean_irve_data df).getColD "consolidated_longitude", x.isNum = true) :=
  clean_coord_isNum df hWF (preDedup_cols_mono df _ hlat) (preDedup_cols_mono df _ hlon)

/-- Witness for C3 at the concrete table `wdfCoord` (one valid row, one row
with a missing latitude): the surviving latitude cell is a number. -/
theorem claim_C3_witness :
    Cell.num rat4885c ∈ (clean_irve_data wdfCoord).getColD "consolidated_latitude" ∧
    (Cell.num rat4885c).isNum = true :=
  ⟨by decide,
   (claim_C3 wdfCoord (by decide) (by decide) (by decide)).1
     (Cell.num rat4885c) (by decide)⟩

/-- C8: every chart builder raises a `KeyError` naming the missing column:
the date column for the time-series builder, the entity column for the
top-entities builder, the category column for the category-mix builder, the
numeric column for the histogram builder, and each coordinate column for the
map builder (for the longitude, "missing" is relative to the frame after the
`__lat` helper column has been added, mirroring the source's statement
order). -/
theorem claim_C8 :
    (∀ (df : Df) (c freq : String), c ∉ df.cols →
       line_installations_over_time df c freq = .error (keyErrorMsg c)) ∧
    (∀ (df : Df) (c : String) (n : Nat), c ∉ df.cols →
       bar_top_entities df c n = .error (keyErrorMsg c)) ∧
    (∀ (df : Df) (c : String), c ∉ df.cols →
       bar_power_categories df c = .error (keyErrorMsg c)) ∧
    (∀ (df : Df) (c : String) (n : Nat), c ∉ df.cols →
       hist_power_distribution df c n = .error (keyErrorMsg c)) ∧
    (∀ (df : Df) (latc lonc pc : String) (tips : List String), latc ∉ df.cols →
       map_irve_points df latc lonc pc tips = .error (keyErrorMsg latc)) ∧
    (∀ (df : Df) (latc lonc pc : String) (tips : List String),
       latc ∈ df.cols → lonc ∉ df.cols → lonc ≠ "__lat" →
       map_irve_points df latc lonc pc tips = .error (keyErrorMsg lonc)) := by
  refine ⟨?_, ?_, ?_, ?_, ?_, ?_⟩
  · intro df c freq h
    simp [line_installations_over_time, ensure_datetime, h]
  · intro df c n h
    simp [bar_top_entities, h]
  · intro df c h
    simp [bar_power_categories, h]
  · intro df c n h
    simp [hist_power_distribution, ensure_numeric, h]
  · intro df latc lonc pc tips h
    simp [map_irve_points, ensure_numeric, h]
  · intro df latc lonc pc tips hlat hlon hlonlat
    have hmem : lonc ∉ (df.setCol "__lat" ((df.getColD latc).map toNumeric)).cols := by
      intro hc
      rcases setCol_cols_cases _ _ _ _ hc with h1 | h1
      · exact hlon h1
      · exact hlonlat h1
    simp [map_irve_points, ensure_numeric, hlat, hmem]

/-- Witness for C8: each builder invoked on a table missing its required
column returns the named `KeyError`. -/
theorem claim_C8_witness :
    line_installations_over_time (Df.mk [] []) "date_mise_en_service" "Y" =
      .error (keyErrorMsg "date_mise_en_service") ∧
    bar_top_entities (Df.mk [] []) "nom_operateur" 15 =
      .error (keyErrorMsg "nom_operateur") ∧
    bar_power_categories (Df.mk [] []) "categorie_puissance" =
      .error (keyErrorMsg "categorie_puissance") ∧
    hist_power_distribution (Df.mk [] []) "puissance_nominale" 40 =
      .error (keyErrorMsg "puissance_nominale") ∧
    map_irve_points (Df.mk [] []) "consolidated_latitude" "consolidated_longitude"
        "puissance_nominale" [] = .error (keyErrorMsg "consolidated_latitude") ∧
    map_irve_points (Df.mk ["consolidated_latitude"] []) "consolidated_latitude"
        "consolidated_longitude" "puissance_nominale" [] =
      .error (keyErrorMsg "consolidated_longitude") := by
  have h := claim_C8
  exact ⟨h.1 _ _ _ (by decide), h.2.1 _ _ _ (by decide), h.2.2.1 _ _ (by decide),
    h.2.2.2.1 _ _ _ (by decide), h.2.2.2.2.1 _ _ _ _ _ (by decide),
    h.2.2.2.2.2 _ _ _ _ _ (by decide) (by decide) (by decide)⟩

theorem sum_count_cons (labs : List String) (hnd : labs.Nodup) (x : String)
    (t : List String) :
    (labs.map (fun lab => (x :: t).count lab)).sum =
      (labs.map (fun lab => t.count lab)).sum + (if x ∈ labs then 1 else 0) := by
  induction labs with
  | nil => simp
  | cons a ls ih =>
    have hal : a ∉ ls := (List.nodup_cons.mp hnd).1
    have hls : ls.Nodup := (List.nodup_cons.mp hnd).2
    rw [List.map_cons, List.sum_cons, List.map_cons, List.sum_cons, ih hls,
      List.count_cons]
    by_cases hx : x = a
    · subst hx
      have hxls : x ∉ ls := hal
      simp [hxls]
      omega
    · have hax : ¬ (a = x) := fun hc => hx hc.symm
      by_cases hmem : x ∈ ls
      · simp [hax, hx, hmem]
        omega
      · simp [hax, hx, hmem]

theorem sum_count_eq_countP (labs : List String) (hnd : labs.Nodup)
    (xs : List String) :
    (labs.map (fun lab => xs.count lab)).sum =
      xs.countP (fun s => decide (s ∈ labs)) := by
  induction xs with
  | nil => simp
  | cons x t ih =>
    rw [sum_count_cons labs hnd x t, ih, List.countP_cons]
    by_cases hx : x ∈ labs <;> simp [hx]

/-- C7: on any table containing the category column, the category-mix
builder succeeds and its data lists exactly the four fixed labels in the
fixed order Normal→Fast→Very fast→Ultra-fast (absent labels counted 0), and
the four counts sum to the number of rows whose category cell prints as one
of the four labels (an undefined category prints as "nan" and is excluded). -/
theorem claim_C7 (df : Df) (c : String) (h : c ∈ df.cols) :
    bar_power_categories df c =
      .ok (catLabels.map (fun lab =>
        (lab, ((df.getColD c).map Cell.asPyStr).count lab))) ∧
    (catLabels.map (fun lab =>
        (lab, ((df.getColD c).map Cell.asPyStr).count lab))).map Prod.fst = catLabels ∧
    ((catLabels.map (fun lab =>
        (lab, ((df.getColD c).map Cell.asPyStr).count lab))).map Prod.snd).sum =
      ((df.getColD c).map Cell.asPyStr).countP (fun s => decide (s ∈ catLabels)) := by
  refine ⟨?_, ?_, ?_⟩
  · simp [bar_power_categories, h]
  · simp [List.map_map]
    rfl
  · rw [List.map_map]
    have : (Prod.snd ∘ fun lab =>
        (lab, ((df.getColD c).map Cell.asPyStr).count lab)) =
        fun lab => ((df.getColD c).map Cell.asPyStr).count lab := rfl
    rw [this]
    exact sum_count_eq_countP catLabels (by decide) _

/-- A two-row table (one Fast row, one undefined category), for witnesses. -/
def wdfCat : Df :=
  Df.mk ["categorie_puissance"] [[Cell.str "Fast (22–50kW)"], [Cell.na]]

/-- Witness for C7 at `wdfCat`. -/
theorem claim_C7_witness :
    bar_power_categories wdfCat "categorie_puissance" =
      .ok (catLabels.map (fun lab =>
        (lab, ((wdfCat.getColD "categorie_puissance").map Cell.asPyStr).count lab))) ∧
    (catLabels.map (fun lab =>
        (lab, ((wdfCat.getColD "categorie_puissance").map Cell.asPyStr).count lab))).map
      Prod.fst = catLabels ∧
    ((catLabels.map (fun lab =>
        (lab, ((wdfCat.getColD "categorie_puissance").map Cell.asPyStr).count lab))).map
      Prod.snd).sum =
      ((wdfCat.getColD "categorie_puissance").map Cell.asPyStr).countP
        (fun s => decide (s ∈ catLabels)) :=
  claim_C7 wdfCat "categorie_puissance" (by decide)

theorem projectStep_rows (d : Df) :
    (projectStep d).rows = d.rows.map (fun r =>
      (keepList.filter (fun c => decide (c ∈ d.cols))).map (fun c => d.cell r c)) := rfl

theorem dropnaStep_rows_sublist (d : Df) : (dropnaStep d).rows.Sublist d.rows := by
  unfold dropnaStep
  split
  · exact List.filter_sublist _
  · exact List.Sublist.refl _

/-- C6: the cleaned table's columns are exactly the allow-list entries
present before projection, in the allow-list's fixed order (a sublist of the
nine-entry allow-list, silently skipping absent entries), and every cleaned
column either already existed in the (header-normalized) input or is one of
the two derived columns, each only when its source column was present. -/
theorem claim_C6 (df : Df) :
    ((clean_irve_data df).cols =
       keepList.filter (fun c => decide (c ∈ (preProject df).cols))) ∧
    (clean_irve_data df).cols.Sublist keepList ∧
    (∀ c ∈ (clean_irve_data df).cols,
       c ∈ (normalizeHeader df).cols ∨
       (c = "annee_mise_en_service" ∧ "date_mise_en_service" ∈ (normalizeHeader df).cols) ∨
       (c = "categorie_puissance" ∧ "puissance_nominale" ∈ (normalizeHeader df).cols)) := by
  refine ⟨clean_cols df, ?_, ?_⟩
  · rw [clean_cols]
    exact List.filter_sublist _
  · intro c hc
    rw [clean_cols] at hc
    have hc2 : c ∈ (preProject df).cols := by
      have := List.of_mem_filter hc
      simpa using this
    rw [preProject_cols] at hc2
    exact preDedup_cols_cases df c hc2

set_option maxHeartbeats 1000000 in
/-- C4: when at least one identity column is present, the cleaned rows are
the projections of the pre-projection rows; those rows are pairwise distinct
on the identity key, and each one is the FIRST row of the pre-dedup table
bearing its key (so later duplicates are the ones discarded). -/
theorem claim_C4 (df : Df)
    (hkeys : ¬ (identityKeys (preDedup df)).isEmpty = true) :
    ((clean_irve_data df).rows = (preProject df).rows.map (fun r =>
        (keepList.filter (fun c => decide (c ∈ (preProject df).cols))).map
          (fun c => (preProject df).cell r c))) ∧
    (preProject df).rows.Pairwise (fun r s =>
      keyOf (preDedup df) (identityKeys (preDedup df)) r ≠
        keyOf (preDedup df) (identityKeys (preDedup df)) s) ∧
    (∀ r ∈ (preProject df).rows,
      (preDedup df).rows.find? (fun s => decide
        (keyOf (preDedup df) (identityKeys (preDedup df)) s =
          keyOf (preDedup df) (identityKeys (preDedup df)) r)) = some r) := by
  have hrows : (dedupStep (preDedup df)).rows =
      dedupBy (keyOf (preDedup df) (identityKeys (preDedup df)))
        (preDedup df).rows := by
    simp only [dedupStep]
    rw [if_neg hkeys]
  refine ⟨?_, ?_, ?_⟩
  · unfold clean_irve_data
    exact projectStep_rows _
  · have hpw := dedupBy_pairwise
      (keyOf (preDedup df) (identityKeys (preDedup df))) (preDedup df).rows
    have hsub : (preProject df).rows.Sublist (dedupStep (preDedup df)).rows :=
      dropnaStep_rows_sublist _
    rw [hrows] at hsub
    exact hpw.sublist hsub
  · intro r hr
    have hrd : r ∈ (dedupStep (preDedup df)).rows :=
      dropnaStep_rows_subset _ r hr
    rw [hrows] at hrd
    exact dedupBy_find? _ _ r hrd

/-- Witness for C4 at the worked example: the surviving row is pairwise
unique on the key and is the first `A1` row of the pre-dedup table. -/
theorem claim_C4_witness :
    ((clean_irve_data exampleRaw).rows =
      (preProject exampleRaw).rows.map (fun r =>
        (keepList.filter (fun c => decide (c ∈ (preProject exampleRaw).cols))).map
          (fun c => (preProject exampleRaw).cell r c))) ∧
    (preProject exampleRaw).rows.Pairwise (fun r s =>
      keyOf (preDedup exampleRaw) (identityKeys (preDedup exampleRaw)) r ≠
        keyOf (preDedup exampleRaw) (identityKeys (preDedup exampleRaw)) s) ∧
    ((preDedup exampleRaw).rows.find? (fun s => decide
        (keyOf (preDedup exampleRaw) (identityKeys (preDedup exampleRaw)) s =
          keyOf (preDedup exampleRaw) (identityKeys (preDedup exampleRaw))
            [Cell.str "A1", Cell.str "Totalenergies", Cell.num 50,
             Cell.num rat4885c, Cell.num rat235c,
             Cell.str "Very fast (50–150kW)"])) =
      some [Cell.str "A1", Cell.str "Totalenergies", Cell.num 50,
            Cell.num rat4885c, Cell.num rat235c,
            Cell.str "Very fast (50–150kW)"]) := by
  have h := claim_C4 exampleRaw (by decide)
  exact ⟨h.1, h.2.1, h.2.2 _ (by decide)⟩

/-- Witness for C6 at the worked example, with the surviving operator
column as the concrete cleaned column. -/
theorem claim_C6_witness :
    ((clean_irve_data exampleRaw).cols =
       keepList.filter (fun c => decide (c ∈ (preProject exampleRaw).cols))) ∧
    (clean_irve_data exampleRaw).cols.Sublist keepList ∧
    ("nom_operateur" ∈ (normalizeHeader exampleRaw).cols ∨
     ("nom_operateur" = "annee_mise_en_service" ∧
        "date_mise_en_service" ∈ (normalizeHeader exampleRaw).cols) ∨
     ("nom_operateur" = "categorie_puissance" ∧
        "puissance_nominale" ∈ (normalizeHeader exampleRaw).cols)) := by
  have h := claim_C6 exampleRaw
  exact ⟨h.1, h.2.1, h.2.2 "nom_operateur" (by decide)⟩

theorem titleCell_isStr (y : Cell) : (titleCell y).isStr = true := rfl

/-- Every operator/installer/municipality cell of the cleaned table is a
string (the step-6 coercion stringifies even missing values). -/
theorem clean_text_isStr (df : Df) (col : String) (hWF : df.WF)
    (hcol : col ∈ textCols) (hpresent : col ∈ (normalizeHeader df).cols) :
    ∀ x ∈ (clean_irve_data df).getColD col, x.isStr = true := by
  have hkeep : col ∈ keepList := by
    have hc3 : col = "nom_amenageur" ∨ col = "nom_operateur" ∨ col = "nom_commune" := by
      simpa [textCols] using hcol
    rcases hc3 with rfl | rfl | rfl <;> decide
  have hWFP : (powerStep (coordStep (dateStep (normalizeHeader df)))).WF :=
    powerStep_WF _ (coordStep_WF _ (dateStep_WF _ (normalizeHeader_WF df hWF)))
  have hmemP : col ∈ (powerStep (coordStep (dateStep (normalizeHeader df)))).cols := by
    apply powerStep_cols_mono
    rw [coordStep_cols]
    exact dateStep_cols_mono _ _ hpresent
  have hT : (preDedup df).getColD col =
      ((powerStep (coordStep (dateStep (normalizeHeader df)))).getColD col).map
        titleCell :=
    getColD_textStep_self _ _ hWFP hcol hmemP
  have hTstr : ∀ x ∈ (preDedup df).getColD col, x.isStr = true := by
    intro x hx
    rw [hT] at hx
    obtain ⟨y, _, hy⟩ := List.mem_map.mp hx
    exact hy ▸ titleCell_isStr y
  have hmemX : col ∈ (preDedup df).cols := preDedup_cols_mono df _ hpresent
  have hmemU : col ∈ (dedupStep (preDedup df)).cols := by
    rw [dedupStep_cols]
    exact hmemX
  have hmemV : col ∈ (preProject df).cols := by
    rw [preProject_cols]
    exact hmemX
  have hcolsVU : (preProject df).cols = (dedupStep (preDedup df)).cols :=
    dropnaStep_cols _
  intro x hx
  unfold clean_irve_data at hx
  rw [getColD_projectStep _ _ (by
    simp only [List.mem_filter, decide_eq_true_eq]
    exact ⟨hkeep, hmemV⟩)] at hx
  obtain ⟨r, hr, hrx⟩ := List.mem_map.mp hx
  have hmem1 : (preProject df).cell r col ∈ (preProject df).getColD col :=
    cell_mem_getColD _ _ r hmemV hr
  have hmem2 := getColD_dropnaStep_subset (dedupStep (preDedup df)) col _ hmem1
  have hmem3 := getColD_dedupStep_subset (preDedup df) col _ hmem2
  exact hrx ▸ hTstr _ hmem3

/-- C10: on a cleaned table, the operator/installer/municipality columns
contain no missing values — step 6 turns a missing name into the literal
string "Nan" — so the top-entities builder's `fillna("Unknown")` is a no-op
there and its "Unknown" bucket never receives a filled-in value. -/
theorem claim_C10 (df : Df) (col : String) (hWF : df.WF) (hcol : col ∈ textCols)
    (hpresent : col ∈ (normalizeHeader df).cols) :
    (∀ x ∈ (clean_irve_data df).getColD col, x.isStr = true) ∧
    titleCell Cell.na = Cell.str "Nan" ∧
    (((clean_irve_data df).getColD col).map (fillnaCell "Unknown") =
      (clean_irve_data df).getColD col) ∧
    (∀ n : Nat, bar_top_entities (clean_irve_data df) col n =
       .ok (topEntitiesData ((clean_irve_data df).getColD col) n)) := by
  have hstr := clean_text_isStr df col hWF hcol hpresent
  have hfix : ((clean_irve_data df).getColD col).map (fillnaCell "Unknown") =
      (clean_irve_data df).getColD col := by
    have : ∀ x ∈ (clean_irve_data df).getColD col, fillnaCell "Unknown" x = x := by
      intro x hx
      have := hstr x hx
      cases x with
      | str s => rfl
      | na => simp [Cell.isStr] at this
      | num q => rfl
      | date y m d => rfl
    exact mapFix _ _ this
  have hmemClean : col ∈ (clean_irve_data df).cols := by
    rw [clean_cols]
    simp only [List.mem_filter, decide_eq_true_eq]
    constructor
    · have hc3 : col = "nom_amenageur" ∨ col = "nom_operateur" ∨ col = "nom_commune" := by
        simpa [textCols] using hcol
      rcases hc3 with rfl | rfl | rfl <;> decide
    · rw [preProject_cols]
      exact preDedup_cols_mono df _ hpresent
  refine ⟨hstr, rfl, hfix, ?_⟩
  intro n
  simp only [bar_top_entities, if_pos hmemClean, hfix]

/-- A one-row table whose operator name is missing, for witnesses. -/
def wdfText : Df := Df.mk ["nom_operateur"] [[Cell.na]]

/-- Witness for C10 at `wdfText`: the missing operator becomes the literal
string "Nan", and the builder's fillna is a no-op on the cleaned column. -/
theorem claim_C10_witness :
    (Cell.str "Nan" ∈ (clean_irve_data wdfText).getColD "nom_operateur" ∧
     (Cell.str "Nan").isStr = true) ∧
    titleCell Cell.na = Cell.str "Nan" ∧
    (((clean_irve_data wdfText).getColD "nom_operateur").map (fillnaCell "Unknown") =
      (clean_irve_data wdfText).getColD "nom_operateur") ∧
    bar_top_entities (clean_irve_data wdfText) "nom_operateur" 15 =
      .ok (topEntitiesData ((clean_irve_data wdfText).getColD "nom_operateur") 15) := by
  have h := claim_C10 wdfText "nom_operateur" (by decide) (by decide) (by decide)
  exact ⟨⟨by decide, h.1 _ (by decide)⟩, h.2.1, h.2.2.1, h.2.2.2 15⟩

theorem clean_cols_sub_keep (df : Df) :
    ∀ c ∈ (clean_irve_data df).cols, c ∈ keepList := by
  intro c hc
  rw [clean_cols] at hc
  exact (List.mem_filter.mp hc).1

theorem clean_cols_to_preDedup (df : Df) :
    ∀ c ∈ (clean_irve_data df).cols, c ∈ (preDedup df).cols := by
  intro c hc
  rw [clean_cols] at hc
  have := (List.mem_filter.mp hc).2
  rw [← preProject_cols]
  simpa using this

theorem keep_norm_fix : ∀ c ∈ keepList, lowerString (stripString c) = c := by decide

theorem normalizeHeader_clean (df : Df) :
    normalizeHeader (clean_irve_data df) = clean_irve_data df := by
  unfold normalizeHeader
  rw [mapFix _ _ (fun c hc => keep_norm_fix c (clean_cols_sub_keep df c hc))]

theorem dedupStep_eq_of_no_keys (d : Df) (h : identityKeys d = []) :
    dedupStep d = d := by
  have hempty : (identityKeys d).isEmpty = true := by
    rw [h]
    rfl
  simp [dedupStep, hempty]

theorem identityKeys_clean_nil (df : Df) :
    identityKeys (preDedup (clean_irve_data df)) = [] := by
  have h1 : "id_pdc_itinerance" ∉ (preDedup (clean_irve_data df)).cols := by
    intro hmem
    rcases preDedup_cols_cases _ _ hmem with h | h | h
    · rw [normalizeHeader_clean] at h
      exact absurd (clean_cols_sub_keep df _ h) (by decide)
    · exact absurd h.1 (by decide)
    · exact absurd h.1 (by decide)
  have h2 : "id_pdc_local" ∉ (preDedup (clean_irve_data df)).cols := by
    intro hmem
    rcases preDedup_cols_cases _ _ hmem with h | h | h
    · rw [normalizeHeader_clean] at h
      exact absurd (clean_cols_sub_keep df _ h) (by decide)
    · exact absurd h.1 (by decide)
    · exact absurd h.1 (by decide)
  unfold identityKeys identityCols
  simp [h1, h2]

theorem isNum_ne_na (x : Cell) (h : x.isNum = true) : x ≠ Cell.na := by
  cases x <;> simp_all [Cell.isNum]

theorem toNumeric_of_isNum (y : Cell) (h : y.isNum = true) : toNumeric y = y := by
  cases y <;> simp_all [Cell.isNum, toNumeric]

/-- In a second cleaning pass of an already-clean table, every coordinate
cell at the dropna stage is still defined. -/
theorem preDedupClean_coord_cells (df : Df) (hWF : df.WF)
    (hlat : "consolidated_latitude" ∈ (preDedup (clean_irve_data df)).cols)
    (hlon : "consolidated_longitude" ∈ (preDedup (clean_irve_data df)).cols) :
    ∀ r ∈ (preDedup (clean_irve_data df)).rows,
      (preDedup (clean_irve_data df)).cell r "consolidated_latitude" ≠ Cell.na ∧
      (preDedup (clean_irve_data df)).cell r "consolidated_longitude" ≠ Cell.na := by
  have hlatC : "consolidated_latitude" ∈ (clean_irve_data df).cols := by
    rcases preDedup_cols_cases _ _ hlat with h | h | h
    · rw [normalizeHeader_clean] at h
      exact h
    · exact absurd h.1 (by decide)
    · exact absurd h.1 (by decide)
  have hlonC : "consolidated_longitude" ∈ (clean_irve_data df).cols := by
    rcases preDedup_cols_cases _ _ hlon with h | h | h
    · rw [normalizeHeader_clean] at h
      exact h
    · exact absurd h.1 (by decide)
    · exact absurd h.1 (by decide)
  have hnum := clean_coord_isNum df hWF
    (clean_cols_to_preDedup df _ hlatC) (clean_cols_to_preDedup df _ hlonC)
  have hWFC : (clean_irve_data df).WF := clean_WF df
  have hWFD : (dateStep (clean_irve_data df)).WF := dateStep_WF _ hWFC
  have hpre : preDedup (clean_irve_data df) =
      textStep (powerStep (coordStep (dateStep (clean_irve_data df)))) := by
    unfold preDedup
    rw [normalizeHeader_clean]
  have hgetlat : (preDedup (clean_irve_data df)).getColD "consolidated_latitude" =
      ((clean_irve_data df).getColD "consolidated_latitude").map toNumeric := by
    rw [hpre,
      getColD_textStep_ne _ _ (by decide) (by decide) (by decide),
      getColD_powerStep_ne _ _ (coordStep_WF _ hWFD) (by decide) (by decide),
      getColD_coordStep_lat _ hWFD (dateStep_cols_mono _ _ hlatC),
      getColD_dateStep_ne _ _ hWFC (by decide) (by decide)]
  have hgetlon : (preDedup (clean_irve_data df)).getColD "consolidated_longitude" =
      ((clean_irve_data df).getColD "consolidated_longitude").map toNumeric := by
    rw [hpre,
      getColD_textStep_ne _ _ (by decide) (by decide) (by decide),
      getColD_powerStep_ne _ _ (coordStep_WF _ hWFD) (by decide) (by decide),
      getColD_coordStep_lon _ hWFD (dateStep_cols_mono _ _ hlonC),
      getColD_dateStep_ne _ _ hWFC (by decide) (by decide)]
  have hlatcells : ∀ x ∈ (preDedup (clean_irve_data df)).getColD
      "consolidated_latitude", x ≠ Cell.na := by
    intro x hx
    rw [hgetlat] at hx
    obtain ⟨y, hy, hyx⟩ := List.mem_map.mp hx
    have hyn := hnum.1 y hy
    rw [← hyx, toNumeric_of_isNum y hyn]
    exact isNum_ne_na y hyn
  have hloncells : ∀ x ∈ (preDedup (clean_irve_data df)).getColD
      "consolidated_longitude", x ≠ Cell.na := by
    intro x hx
    rw [hgetlon] at hx
    obtain ⟨y, hy, hyx⟩ := List.mem_map.mp hx
    have hyn := hnum.2 y hy
    rw [← hyx, toNumeric_of_isNum y hyn]
    exact isNum_ne_na y hyn
  intro r hr
  exact ⟨getColD_all_to_cell _ _ hlat _ hlatcells r hr,
    getColD_all_to_cell _ _ hlon _ hloncells r hr⟩

/-- C5: cleaning an already-cleaned table changes no row count — the
identity columns are projected away so deduplication is skipped, and the
coordinate filter finds no new missing values. -/
theorem claim_C5 (df : Df) (hWF : df.WF) :
    (clean_irve_data (clean_irve_data df)).rows.length =
      (clean_irve_data df).rows.length := by
  have hded : dedupStep (preDedup (clean_irve_data df)) =
      preDedup (clean_irve_data df) :=
    dedupStep_eq_of_no_keys _ (identityKeys_clean_nil df)
  have hdrop : (dropnaStep (preDedup (clean_irve_data df))).rows.length =
      (preDedup (clean_irve_data df)).rows.length := by
    by_cases hcond :
        "consolidated_latitude" ∈ (preDedup (clean_irve_data df)).cols ∧
        "consolidated_longitude" ∈ (preDedup (clean_irve_data df)).cols
    · have hcells := preDedupClean_coord_cells df hWF hcond.1 hcond.2
      unfold dropnaStep
      rw [if_pos hcond]
      simp only []
      rw [List.filter_eq_self.mpr (fun r hr => by
        simpa using hcells r hr)]
    · unfold dropnaStep
      rw [if_neg hcond]
  have h1 : (clean_irve_data (clean_irve_data df)).rows.length =
      (preProject (clean_irve_data df)).rows.length := by
    unfold clean_irve_data
    exact projectStep_rows_length _
  rw [h1]
  unfold preProject
  rw [hded, hdrop, preDedup_rows_length]

/-- Witness for C5 at the worked example (one row stays one row). -/
theorem claim_C5_witness :
    (clean_irve_data (clean_irve_data exampleRaw)).rows.length =
      (clean_irve_data exampleRaw).rows.length :=
  claim_C5 exampleRaw (by decide)

/-! ### Heap lemmas and the mutation claim -/

theorem storeRead_concat (s : Store) (d : Df) : (s ++ [d]).read s.length = d := by
  unfold Store.read
  exact listGetD_concat_self s d _

theorem storeRead_append (s : Store) (d : Df) (a : Nat) (h : a < s.length) :
    (s ++ [d]).read a = s.read a := by
  unfold Store.read
  exact listGetD_append_left s [d] a _ h

theorem storeRead_write_ne (s : Store) (b : Nat) (d : Df) (a : Nat) (h : b ≠ a) :
    (s.write b d).read a = s.read a := by
  unfold Store.read Store.write
  exact listGetD_set_ne s b a d _ h

/-- C9: neither `clean_irve_data` nor any chart builder (map, time series,
top entities, category mix, histogram, missingness) mutates the frame at
the caller's address: `clean` and the map builder copy before assigning, and
the remaining builders never assign into the frame at all. The result frames
agree with the pure functions. -/
theorem claim_C9 :
    (∀ (s : Store) (a : Nat), a < s.length →
       (clean_irve_data_heap s a).1.read a = s.read a ∧
       (clean_irve_data_heap s a).1.read (clean_irve_data_heap s a).2 =
         clean_irve_data (s.read a)) ∧
    (∀ (s : Store) (a : Nat) (latc lonc pc : String) (tips : List String),
       a < s.length →
       (map_irve_points_heap s a latc lonc pc tips).1.read a = s.read a ∧
       (map_irve_points_heap s a latc lonc pc tips).2 =
         map_irve_points (s.read a) latc lonc pc tips) ∧
    (∀ (s : Store) (a : Nat) (c freq : String),
       (line_installations_over_time_heap s a c freq).1 = s) ∧
    (∀ (s : Store) (a : Nat) (c : String) (n : Nat),
       (bar_top_entities_heap s a c n).1 = s) ∧
    (∀ (s : Store) (a : Nat) (c : String),
       (bar_power_categories_heap s a c).1 = s) ∧
    (∀ (s : Store) (a : Nat) (c : String) (n : Nat),
       (hist_power_distribution_heap s a c n).1 = s) ∧
    (∀ (s : Store) (a : Nat) (n : Nat),
       (bar_missingness_heap s a n).1 = s) := by
  refine ⟨?_, ?_, fun s a c freq => rfl, fun s a c n => rfl,
    fun s a c => rfl, fun s a c n => rfl, fun s a n => rfl⟩
  · intro s a h
    constructor
    · simp only [clean_irve_data_heap]
      rw [storeRead_append _ _ _ (by
          simp only [Store.write, List.length_append, List.length_set,
            List.length_cons, List.length_nil]
          omega),
        storeRead_append _ _ _ (by
          simp only [Store.write, List.length_append, List.length_set,
            List.length_cons, List.length_nil]
          omega),
        storeRead_append _ _ _ (by
          simp only [Store.write, List.length_append, List.length_set,
            List.length_cons, List.length_nil]
          omega),
        storeRead_write_ne _ _ _ _ (by omega),
        storeRead_write_ne _ _ _ _ (by omega),
        storeRead_write_ne _ _ _ _ (by omega),
        storeRead_write_ne _ _ _ _ (by omega),
        storeRead_write_ne _ _ _ _ (by omega),
        storeRead_append _ _ _ h]
    · simp only [clean_irve_data_heap]
      rw [storeRead_concat]
      rfl
  · intro s a latc lonc pc tips h
    rcases hlat : ensure_numeric (s.read a) latc with e | latv
    · constructor
      · simp only [map_irve_points_heap, hlat]
        exact storeRead_append _ _ _ h
      · simp only [map_irve_points_heap, map_irve_points, hlat]
    · rcases hlon : ensure_numeric ((s.read a).setCol "__lat" latv) lonc with e | lonv
      · constructor
        · simp only [map_irve_points_heap, hlat, hlon]
          rw [storeRead_write_ne _ _ _ _ (by omega)]
          exact storeRead_append _ _ _ h
        · simp only [map_irve_points_heap, map_irve_points, hlat, hlon]
      · constructor
        · simp only [map_irve_points_heap, hlat, hlon]
          rw [storeRead_write_ne _ _ _ _ (by omega),
            storeRead_write_ne _ _ _ _ (by omega),
            storeRead_write_ne _ _ _ _ (by omega)]
          exact storeRead_append _ _ _ h
        · simp only [map_irve_points_heap, map_irve_points, hlat, hlon]

/-- Witness for C9 at a one-frame heap holding the worked example. -/
theorem claim_C9_witness :
    ((clean_irve_data_heap [exampleRaw] 0).1.read 0 = Store.read [exampleRaw] 0 ∧
     (clean_irve_data_heap [exampleRaw] 0).1.read (clean_irve_data_heap [exampleRaw] 0).2 =
       clean_irve_data (Store.read [exampleRaw] 0)) ∧
    ((map_irve_points_heap [exampleRaw] 0 "consolidated_latitude"
        "consolidated_longitude" "puissance_nominale" []).1.read 0 =
      Store.read [exampleRaw] 0 ∧
     (map_irve_points_heap [exampleRaw] 0 "consolidated_latitude"
        "consolidated_longitude" "puissance_nominale" []).2 =
       map_irve_points (Store.read [exampleRaw] 0) "consolidated_latitude"
         "consolidated_longitude" "puissance_nominale" []) ∧
    (line_installations_over_time_heap [exampleRaw] 0 "date_mise_en_service" "Y").1 =
      [exampleRaw] ∧
    (bar_top_entities_heap [exampleRaw] 0 "nom_operateur" 15).1 = [exampleRaw] ∧
    (bar_power_categories_heap [exampleRaw] 0 "categorie_puissance").1 = [exampleRaw] ∧
    (hist_power_distribution_heap [exampleRaw] 0 "puissance_nominale" 40).1 =
      [exampleRaw] ∧
    (bar_missingness_heap [exampleRaw] 0 20).1 = [exampleRaw] := by
  have h := claim_C9
  exact ⟨h.1 [exampleRaw] 0 (by decide),
    h.2.1 [exampleRaw] 0 _ _ _ _ (by decide),
    h.2.2.1 [exampleRaw] 0 _ _, h.2.2.2.1 [exampleRaw] 0 _ _,
    h.2.2.2.2.1 [exampleRaw] 0 _, h.2.2.2.2.2.1 [exampleRaw] 0 _ _,
    h.2.2.2.2.2.2 [exampleRaw] 0 _⟩
